import Mathlib

/-!
Verification of the CSV-repair scripts of the beekon-demo repository.

The scripts repair a newline-corrupted CSV export.  Each Python source file is
shallowly embedded below: physical lines and field values are `List Char`
(Python `str`), records are `List (List Char)`, fallible parsers return
`Option`, and the per-script driver loops become `List.foldl` over an explicit
state structure.  Python string primitives (`split`, `join`, `strip`,
`rsplit(sep, 1)`, `find`, `replace`, regex scanning with the two concrete
patterns the scripts use) are reproduced as executable list functions.
-/

set_option maxHeartbeats 1600000
set_option maxRecDepth 8000

/-! ## Python string primitives -/

/-- Python whitespace class used by `str.strip()` (and `\s` for ASCII). -/
def isPySpace (c : Char) : Bool :=
  c = ' ' || c = '\t' || c = '\n' || c = '\r' || c = Char.ofNat 11 || c = Char.ofNat 12

/-- Drop the longest prefix of characters satisfying `p` (left strip). -/
def stripLeftP (p : Char → Bool) (l : List Char) : List Char :=
  l.dropWhile p

/-- Drop the longest suffix of characters satisfying `p` (right strip). -/
def stripRightP (p : Char → Bool) (l : List Char) : List Char :=
  (l.reverse.dropWhile p).reverse

/-- Python `str.strip()` with an arbitrary character class. -/
def pyStripP (p : Char → Bool) (l : List Char) : List Char :=
  stripRightP p (stripLeftP p l)

/-- Python `str.strip()` (whitespace). -/
def pyStripWs (l : List Char) : List Char :=
  pyStripP isPySpace l

/-- Python `str.strip(cs)`: strip any of the characters `cs` from both ends. -/
def pyStripChars (cs : List Char) (l : List Char) : List Char :=
  pyStripP (fun c => cs.contains c) l

/-- Python `str.rstrip(cs)`. -/
def pyRstripChars (cs : List Char) (l : List Char) : List Char :=
  stripRightP (fun c => cs.contains c) l

/-- Python `str.split(sep)` for a one-character separator: every occurrence
separates, adjacent separators produce empty parts, `''.split(',') = ['']`. -/
def pySplit (sep : Char) : List Char → List (List Char)
  | [] => [[]]
  | c :: rest =>
    if c = sep then [] :: pySplit sep rest
    else
      match pySplit sep rest with
      | [] => [[c]]
      | h :: t => (c :: h) :: t

/-- Python `','.join(parts)`. -/
def joinComma : List (List Char) → List Char
  | [] => []
  | [l] => l
  | l :: ls => l ++ ',' :: joinComma ls

/-- Python `' '.join(parts)`. -/
def joinSpace : List (List Char) → List Char
  | [] => []
  | [l] => l
  | l :: ls => l ++ ' ' :: joinSpace ls

/-- All start indices at which `pat` occurs as a contiguous substring of `s`,
in increasing order. -/
def subOccurrences (pat s : List Char) : List Nat :=
  (List.range (s.length + 1)).filter (fun i => pat.isPrefixOf (s.drop i))

/-- Python `pat in s` (substring containment). -/
def containsSub (pat s : List Char) : Bool :=
  !(subOccurrences pat s).isEmpty

/-- Split `s` around the last occurrence of `pat`, if any. -/
def rsplitLastAt (pat s : List Char) : Option (List Char × List Char) :=
  match (subOccurrences pat s).getLast? with
  | some i => some (s.take i, s.drop (i + pat.length))
  | none => none

/-- Python `s.rsplit(pat, 1)`: a two-element list when `pat` occurs, else `[s]`. -/
def pyRsplitOnce (pat s : List Char) : List (List Char) :=
  match rsplitLastAt pat s with
  | some p => [p.1, p.2]
  | none => [s]

/-- Python `s.find(pat)` as an `Option` (Python returns `-1` for `none`). -/
def pyFind (pat s : List Char) : Option Nat :=
  (subOccurrences pat s).head?

/-- Python slice `s[a:b]` for nonnegative bounds. -/
def pySlice (s : List Char) (a b : Nat) : List Char :=
  (s.take b).drop a

/-- Python `s.replace(c, rep)` for a one-character pattern. -/
def pyReplaceChar (c0 : Char) (rep : List Char) : List Char → List Char
  | [] => []
  | c :: rest =>
    if c = c0 then rep ++ pyReplaceChar c0 rep rest
    else c :: pyReplaceChar c0 rep rest

/-- Fuel-driven worker for multi-character `str.replace`; the fuel is the
input length, which suffices because each step consumes at least one input
character when the pattern is nonempty. -/
def pyReplaceFuel (pat rep : List Char) : Nat → List Char → List Char
  | _, [] => []
  | 0, s => s
  | fuel + 1, c :: rest =>
    if pat.isPrefixOf (c :: rest) then
      rep ++ pyReplaceFuel pat rep fuel ((c :: rest).drop pat.length)
    else c :: pyReplaceFuel pat rep fuel rest

/-- Python `s.replace(pat, rep)` for a nonempty multi-character pattern. -/
def pyReplaceL (pat rep s : List Char) : List Char :=
  pyReplaceFuel pat rep s.length s

/-- ASCII decimal digit. -/
def isDigitB (c : Char) : Bool :=
  '0' ≤ c && c ≤ '9'

/-- Lowercase hexadecimal digit, the class `[0-9a-f]` of the scripts' UUID
regular expressions. -/
def isLowerHex (c : Char) : Bool :=
  (('0' ≤ c) && (c ≤ '9')) || (('a' ≤ c) && (c ≤ 'f'))

/-- Hexadecimal digit of either case (as accepted by Python `int(h, 16)`). -/
def isHexAny (c : Char) : Bool :=
  isDigitB c || (('a' ≤ c) && (c ≤ 'f')) || (('A' ≤ c) && (c ≤ 'F'))

/-! ## The two regular expressions of the scripts -/

/-- Character class at position `i` of a canonical 8-4-4-4-12 UUID:
hyphens at 8, 13, 18, 23, lowercase hex digits elsewhere. -/
def uuidCharOk (i : Nat) (c : Char) : Bool :=
  if i = 8 || i = 13 || i = 18 || i = 23 then c = '-' else isLowerHex c

/-- The record-start anchor `^[0-9a-f]{8}-[0-9a-f]{4}-[0-9a-f]{4}-[0-9a-f]{4}-[0-9a-f]{12},`
(`re.match`, so anything may follow the comma). -/
def uuidAnchorB (l : List Char) : Bool :=
  decide (37 ≤ l.length)
    && (List.range 36).all (fun i => uuidCharOk i (l.getD i 'X'))
    && decide (l.getD 36 'X' = ',')

/-- Character class at position `i` of the 19-character timestamp prefix
`\d{4}-\d{2}-\d{2} \d{2}:\d{2}:\d{2}`. -/
def tsClass (i : Nat) (c : Char) : Bool :=
  if i = 4 || i = 7 then c = '-'
  else if i = 10 then c = ' '
  else if i = 13 || i = 16 then c = ':'
  else isDigitB c

/-- Match of `\d{4}-\d{2}-\d{2} \d{2}:\d{2}:\d{2}` at the start of `s`. -/
def tsShortOk (s : List Char) : Bool :=
  decide (19 ≤ s.length) && (List.range 19).all (fun i => tsClass i (s.getD i 'X'))

/-- `re.search` of the short timestamp pattern used by `fix_csv_final.py`. -/
def containsTsShort (s : List Char) : Bool :=
  (List.range (s.length + 1)).any (fun i => tsShortOk (s.drop i))

/-- Match length of the full pattern
`\d{4}-\d{2}-\d{2} \d{2}:\d{2}:\d{2}\.\d+\+\d{2}` at the start of `s`
(the greedy `\d+` takes the maximal digit run; a shorter run cannot make the
following `\+` match, so the match is unique). -/
def tsFullLen (s : List Char) : Option Nat :=
  if tsShortOk s then
    if s.getD 19 'X' = '.' then
      let k := ((s.drop 20).takeWhile isDigitB).length
      if k = 0 then none
      else if s.getD (20 + k) 'X' = '+'
              && isDigitB (s.getD (21 + k) 'X')
              && isDigitB (s.getD (22 + k) 'X')
      then some (23 + k) else none
    else none
  else none

/-- Fuel-driven scan implementing `re.finditer` of the full timestamp
pattern: leftmost matches, non-overlapping, reported as `(start, end)`
index pairs.  The fuel is the remaining input length. -/
def tsScan : Nat → List Char → Nat → List (Nat × Nat)
  | 0, _, _ => []
  | _ + 1, [], _ => []
  | fuel + 1, c :: rest, pos =>
    match tsFullLen (c :: rest) with
    | some len => (pos, pos + len) :: tsScan fuel ((c :: rest).drop len) (pos + len)
    | none => tsScan fuel rest (pos + 1)

/-- `list(timestamp_pattern.finditer(s))` for the full pattern. -/
def tsFindAllFull (s : List Char) : List (Nat × Nat) :=
  tsScan s.length s 0

/-- The matched text of the occurrence recorded as `(start, end)`. -/
def tsMatchText (s : List Char) (m : Nat × Nat) : List Char :=
  pySlice s m.1 m.2

/-! ## Field Resolvers

One `Option`-returning function per script, translated line by line from the
Python sources.  A logical record is a `List (List Char)` of physical lines;
each resolver first re-joins them with a single space, as the sources do. -/

/-- The three-character joint `","` between the two free-text fields. -/
def qcqJoint : List Char := [ '"', ',', '"']

/-- The inline split of the text span shared verbatim by
`create_clean_csv.parse_record_lines` (lines 128-134),
`fix_competitor_csv.parse_competitor_record` (lines 186-192) and
`fix_competitor_csv_final.parse_competitor_record_robust` (lines 227-233):
if `'","' in middle_text`, rsplit once on it and strip `"` from both pieces,
else the whole span is `response_text` (quote-stripped) and `summary_text`
is empty. -/
def splitTextSpanQuoted (middle_text : List Char) : List Char × List Char :=
  if containsSub qcqJoint middle_text then
    let text_parts := pyRsplitOnce qcqJoint middle_text
    (pyStripChars [ '"'] (text_parts.getD 0 []),
     pyStripChars [ '"'] (text_parts.getD 1 []))
  else
    (pyStripChars [ '"'] middle_text, [])

/-- The inline split of `fix_csv_final.process_record_lines` (lines 128-135):
`quote_split = response_text.rsplit('","', 1)`, and when it has two pieces the
left one is `strip('"')`-ed but the right one only `strip()`-ed (whitespace). -/
def splitTextSpanFinal (response_text : List Char) : List Char × List Char :=
  let quote_split := pyRsplitOnce qcqJoint response_text
  if quote_split.length = 2 then
    (pyStripChars [ '"'] (quote_split.getD 0 []), pyStripWs (quote_split.getD 1 []))
  else
    (pyStripChars [ '"'] response_text, [])

/-- `fix_csv_final.process_record_lines` (lines 75-146).  Timestamp anchors are
located by `re.search` of the short pattern inside each comma-separated part
after the first eight. -/
def process_record_lines (lines : List (List Char)) : Option (List (List Char)) :=
  let full_text := pyStripWs (joinSpace lines)
  let parts := pySplit ',' full_text
  if parts.length < 13 then none
  else
    let fields := parts.take 8
    let remaining_parts := parts.drop 8
    let timestamp_positions :=
      ((remaining_parts.enum).filter (fun p => containsTsShort p.2)).map Prod.fst
    if 2 ≤ timestamp_positions.length then
      let last_timestamp_pos := timestamp_positions.getD (timestamp_positions.length - 1) 0
      let second_last_pos := timestamp_positions.getD (timestamp_positions.length - 2) 0
      let response_text_parts := remaining_parts.take second_last_pos
      let analyzed_at_parts :=
        (remaining_parts.drop second_last_pos).take (last_timestamp_pos - second_last_pos)
      let created_at_parts := (remaining_parts.drop last_timestamp_pos).take 1
      let session_id_parts := remaining_parts.drop (last_timestamp_pos + 1)
      let response_text := pyStripWs (joinComma response_text_parts)
      let p := splitTextSpanFinal response_text
      let analyzed_at := pyStripWs (joinComma analyzed_at_parts)
      let created_at := pyStripWs (joinComma created_at_parts)
      let analysis_session_id := pyStripWs (joinComma session_id_parts)
      some ((fields ++ [p.1, p.2, analyzed_at, created_at, analysis_session_id]).take 13)
    else none

/-- Start of the slice `full_line[full_line.find(confidence_score) + len(confidence_score) + 1:]`
in `create_clean_csv.parse_record_lines` (line 124); Python's `find` returns
`-1` when the pattern is absent, making the slice start `len(confidence_score)`. -/
def middleStartClean (full_line confidence_score : List Char) : Nat :=
  match pyFind confidence_score full_line with
  | some i => i + confidence_score.length + 1
  | none => confidence_score.length

/-- `create_clean_csv.parse_record_lines` (lines 74-151).  Scans the whole
joined line with the full timestamp pattern. -/
def parse_record_lines (lines : List (List Char)) : Option (List (List Char)) :=
  let full_line := pyStripWs (joinSpace lines)
  let timestamps := tsFindAllFull full_line
  if 2 ≤ timestamps.length then
    let analyzed_at_match := timestamps.getD (timestamps.length - 2) (0, 0)
    let created_at_match := timestamps.getD (timestamps.length - 1) (0, 0)
    let parts := pySplit ',' full_line
    if 8 ≤ parts.length then
      let id_val := pyStripWs (parts.getD 0 [])
      let prompt_id := pyStripWs (parts.getD 1 [])
      let llm_provider := pyStripWs (parts.getD 2 [])
      let website_id := pyStripWs (parts.getD 3 [])
      let is_mentioned := pyStripWs (parts.getD 4 [])
      let rank_position := pyStripWs (parts.getD 5 [])
      let sentiment_score := pyStripWs (parts.getD 6 [])
      let confidence_score := pyStripWs (parts.getD 7 [])
      let middle_part := pyStripChars [ ' ', ',']
        (pySlice full_line (middleStartClean full_line confidence_score) analyzed_at_match.1)
      let p := splitTextSpanQuoted middle_part
      let analyzed_at := tsMatchText full_line analyzed_at_match
      let created_at := tsMatchText full_line created_at_match
      let analysis_session_id := pyStripChars [ ' ', ','] (full_line.drop created_at_match.2)
      some [id_val, prompt_id, llm_provider, website_id, is_mentioned, rank_position,
            sentiment_score, confidence_score, p.1, p.2, analyzed_at, created_at,
            analysis_session_id]
    else none
  else none

/-- The comma-joined tail `','.join(parts[8:])` that
`fix_competitor_csv.parse_competitor_record` scans for timestamps. -/
def compRemainingText (lines : List (List Char)) : List Char :=
  joinComma ((pySplit ',' (pyStripWs (joinSpace lines))).drop 8)

/-- `fix_competitor_csv.parse_competitor_record` (lines 142-216). -/
def parse_competitor_record (lines : List (List Char)) : Option (List (List Char)) :=
  let full_line := pyStripWs (joinSpace lines)
  let parts := pySplit ',' full_line
  if parts.length < 14 then none
  else
    let id_val := pyStripWs (parts.getD 0 [])
    let competitor_id := pyStripWs (parts.getD 1 [])
    let llm_analysis_id := pyStripWs (parts.getD 2 [])
    let llm_provider := pyStripWs (parts.getD 3 [])
    let is_mentioned := pyStripWs (parts.getD 4 [])
    let rank_position := pyStripWs (parts.getD 5 [])
    let sentiment_score := pyStripWs (parts.getD 6 [])
    let confidence_score := pyStripWs (parts.getD 7 [])
    let remaining_text := joinComma (parts.drop 8)
    let timestamps := tsFindAllFull remaining_text
    if 2 ≤ timestamps.length then
      let analyzed_at_match := timestamps.getD (timestamps.length - 2) (0, 0)
      let created_at_match := timestamps.getD (timestamps.length - 1) (0, 0)
      let middle_text := pyStripChars [ ' ', ','] (remaining_text.take analyzed_at_match.1)
      let p := splitTextSpanQuoted middle_text
      let analyzed_at := tsMatchText remaining_text analyzed_at_match
      let created_at := tsMatchText remaining_text created_at_match
      let remaining_after_created :=
        pyStripChars [ ' ', ','] (remaining_text.drop created_at_match.2)
      let final_parts :=
        if remaining_after_created.isEmpty then [[], []]
        else pySplit ',' remaining_after_created
      let prompt_id :=
        if 0 < final_parts.length then pyStripWs (final_parts.getD 0 []) else []
      let analysis_session_id :=
        if 1 < final_parts.length then pyStripWs (final_parts.getD 1 []) else []
      some [id_val, competitor_id, llm_analysis_id, llm_provider, is_mentioned,
            rank_position, sentiment_score, confidence_score, p.1, p.2,
            analyzed_at, created_at, prompt_id, analysis_session_id]
    else none

/-- `re.match(r'^([0-9a-f]{8}-...-[0-9a-f]{12}),', s)`: the captured UUID
when the anchor matches. -/
def matchUuidComma (s : List Char) : Option (List Char) :=
  if uuidAnchorB s then some (s.take 36) else none

/-- `re.match(r'^([^,]+),', s)`: the (necessarily maximal) nonempty comma-free
prefix, provided a comma follows it. -/
def matchNonCommaField (s : List Char) : Option (List Char) :=
  let tok := s.takeWhile (fun c => !(c = ','))
  if tok.isEmpty then none
  else if s.getD tok.length 'X' = ',' then some tok else none

/-- `re.match(r'^(true|false),', s)`. -/
def matchBoolComma (s : List Char) : Option (List Char) :=
  if ( "true,").toList.isPrefixOf s then some ( "true").toList
  else if ( "false,").toList.isPrefixOf s then some ( "false").toList
  else none

/-- `fix_competitor_csv_final.parse_competitor_record_robust` (lines 140-253):
sequential regex extraction of the eight prefix fields, then the same
timestamp-anchor logic (with `rstrip(' ,')` on the text span, line 223). -/
def parse_competitor_record_robust (lines : List (List Char)) : Option (List (List Char)) :=
  let full_line := pyStripWs (joinSpace lines)
  match matchUuidComma full_line with
  | none => none
  | some id_val =>
    let r1 := full_line.drop (id_val.length + 1)
    match matchUuidComma r1 with
    | none => none
    | some competitor_id =>
      let r2 := r1.drop (competitor_id.length + 1)
      match matchUuidComma r2 with
      | none => none
      | some llm_analysis_id =>
        let r3 := r2.drop (llm_analysis_id.length + 1)
        match matchNonCommaField r3 with
        | none => none
        | some llm_provider =>
          let r4 := r3.drop (llm_provider.length + 1)
          match matchBoolComma r4 with
          | none => none
          | some is_mentioned =>
            let r5 := r4.drop (is_mentioned.length + 1)
            match matchNonCommaField r5 with
            | none => none
            | some rank_position =>
              let r6 := r5.drop (rank_position.length + 1)
              match matchNonCommaField r6 with
              | none => none
              | some sentiment_score =>
                let r7 := r6.drop (sentiment_score.length + 1)
                match matchNonCommaField r7 with
                | none => none
                | some confidence_score =>
                  let remaining := r7.drop (confidence_score.length + 1)
                  let timestamps := tsFindAllFull remaining
                  if 2 ≤ timestamps.length then
                    let analyzed_at_match := timestamps.getD (timestamps.length - 2) (0, 0)
                    let created_at_match := timestamps.getD (timestamps.length - 1) (0, 0)
                    let text_part :=
                      pyRstripChars [ ' ', ','] (remaining.take analyzed_at_match.1)
                    let p := splitTextSpanQuoted text_part
                    let analyzed_at := tsMatchText remaining analyzed_at_match
                    let created_at := tsMatchText remaining created_at_match
                    let after_created_at :=
                      pyStripChars [ ' ', ','] (remaining.drop created_at_match.2)
                    let final_parts :=
                      if after_created_at.isEmpty then [[], []]
                      else pySplit ',' after_created_at
                    let prompt_id :=
                      if 0 < final_parts.length then pyStripWs (final_parts.getD 0 []) else []
                    let analysis_session_id :=
                      if 1 < final_parts.length then pyStripWs (final_parts.getD 1 []) else []
                    some [id_val, competitor_id, llm_analysis_id, llm_provider, is_mentioned,
                          rank_position, sentiment_score, confidence_score, p.1, p.2,
                          analyzed_at, created_at, prompt_id, analysis_session_id]
                  else none

/-! ## Concrete records used by the scenario claims -/

/-- The scenario line of the specification (13 fields, LLM entity). -/
def c4line : List Char :=
  ( "a1b2c3d4-e5f6-7890-abcd-ef1234567890,pid,chatgpt,wid,true,1,0.50,0.90,\"hello\",\"world\",2025-01-01 00:00:00.000000+00,2025-01-01 00:00:00.000000+00,").toList

/-- What `create_clean_csv.parse_record_lines` resolves `c4line` to. -/
def c4cleanRec : List (List Char) :=
  [( "a1b2c3d4-e5f6-7890-abcd-ef1234567890").toList, ( "pid").toList, ( "chatgpt").toList,
   ( "wid").toList, ( "true").toList, ( "1").toList, ( "0.50").toList, ( "0.90").toList,
   ( "hello").toList, ( "world").toList,
   ( "2025-01-01 00:00:00.000000+00").toList, ( "2025-01-01 00:00:00.000000+00").toList, []]

/-- What `fix_csv_final.process_record_lines` resolves `c4line` to: the
summary field keeps its closing quote. -/
def c4finalRec : List (List Char) :=
  [( "a1b2c3d4-e5f6-7890-abcd-ef1234567890").toList, ( "pid").toList, ( "chatgpt").toList,
   ( "wid").toList, ( "true").toList, ( "1").toList, ( "0.50").toList, ( "0.90").toList,
   ( "hello").toList, ( "world\"").toList,
   ( "2025-01-01 00:00:00.000000+00").toList, ( "2025-01-01 00:00:00.000000+00").toList, []]

/-- A line whose two timestamps lack fractional seconds and offset: the full
timestamp pattern matches nowhere in it. -/
def l2line : List Char :=
  ( "a1b2c3d4-e5f6-7890-abcd-ef1234567890,p,c,w,true,1,0.5,0.9,x,y,2025-01-01 00:00:00,2025-01-02 00:00:00,").toList

/-- What `fix_csv_final.process_record_lines` resolves `l2line` to. -/
def l2rec : List (List Char) :=
  [( "a1b2c3d4-e5f6-7890-abcd-ef1234567890").toList, ( "p").toList, ( "c").toList,
   ( "w").toList, ( "true").toList, ( "1").toList, ( "0.5").toList, ( "0.9").toList,
   ( "x,y").toList, [], ( "2025-01-01 00:00:00").toList, ( "2025-01-02 00:00:00").toList, []]

/-- A well-formed 14-field competitor line (second entity). -/
def c6line : List Char :=
  ( "a1b2c3d4-e5f6-7890-abcd-ef1234567890,b1b2c3d4-e5f6-7890-abcd-ef1234567890,c1b2c3d4-e5f6-7890-abcd-ef1234567890,chatgpt,true,1,0.5,0.9,\"hello\",\"world\",2025-01-01 00:00:00.000000+00,2025-01-02 11:22:33.123456+05,pid,").toList

/-- What both competitor resolvers resolve `c6line` to. -/
def c6rec : List (List Char) :=
  [( "a1b2c3d4-e5f6-7890-abcd-ef1234567890").toList,
   ( "b1b2c3d4-e5f6-7890-abcd-ef1234567890").toList,
   ( "c1b2c3d4-e5f6-7890-abcd-ef1234567890").toList,
   ( "chatgpt").toList, ( "true").toList, ( "1").toList, ( "0.5").toList, ( "0.9").toList,
   ( "hello").toList, ( "world").toList,
   ( "2025-01-01 00:00:00.000000+00").toList, ( "2025-01-02 11:22:33.123456+05").toList,
   ( "pid").toList, []]

/-! ## Record Segmenter and per-script driver loops

Every script runs the same loop over the post-header physical lines: rstrip
the line, open a new record at a UUID-comma anchor (flushing the previous
one), append non-anchor lines to the open record, drop them when no record is
open, and flush the last open record after the loop.  `segmentLines` is that
shared grouping logic by itself; each script's driver is embedded separately
below and later proved to factor through `segmentLines`. -/

/-- The characters removed by `line.rstrip('\n\r')`. -/
def nlChars : List Char := [ '\n', '\r']

/-- Segmenter state: closed groups plus the currently open group. -/
structure SegSt where
  groups : List (List (List Char))
  current : List (List Char)
deriving DecidableEq

/-- One segmenter step (the shared body of the scripts' line loops). -/
def segStep (st : SegSt) (rawline : List Char) : SegSt :=
  let line := pyRstripChars nlChars rawline
  if uuidAnchorB line then
    ⟨if st.current.isEmpty then st.groups else st.groups ++ [st.current], [line]⟩
  else if st.current.isEmpty then st
  else ⟨st.groups, st.current ++ [line]⟩

/-- End-of-input flush of the still-open group. -/
def segFinish (st : SegSt) : List (List (List Char)) :=
  if st.current.isEmpty then st.groups else st.groups ++ [st.current]

/-- The Record Segmenter: post-header lines to logical-record line groups. -/
def segmentLines (lines : List (List Char)) : List (List (List Char)) :=
  segFinish (lines.foldl segStep ⟨[], []⟩)

/-- Driver state for `fix_csv_final` and `create_clean_csv`: the accepted
records and the open record's lines. -/
structure RecSt where
  records : List (List (List Char))
  current : List (List Char)
deriving DecidableEq

/-- `fix_csv_final.fix_csv_final` record flush (lines 38-42/52-56): keep the
resolved record when it is truthy. -/
def finalFlush (st : RecSt) : RecSt :=
  match process_record_lines st.current with
  | some record => if record.isEmpty then st else ⟨st.records ++ [record], st.current⟩
  | none => st

/-- One loop iteration of `fix_csv_final.fix_csv_final` (lines 29-49). -/
def finalStep (st : RecSt) (rawline : List Char) : RecSt :=
  let line := pyRstripChars nlChars rawline
  if uuidAnchorB line then
    ⟨(if st.current.isEmpty then st else finalFlush st).records, [line]⟩
  else if st.current.isEmpty then st
  else ⟨st.records, st.current ++ [line]⟩

/-- `fix_csv_final.fix_csv_final` over the post-header lines (loop plus final
flush, lines 29-56). -/
def fix_csv_final_run (lines : List (List Char)) : RecSt :=
  let st := lines.foldl finalStep ⟨[], []⟩
  if st.current.isEmpty then st else finalFlush st

/-- The records `fix_csv_final` writes out. -/
def fix_csv_final_records (lines : List (List Char)) : List (List (List Char)) :=
  (fix_csv_final_run lines).records

/-- `create_clean_csv.create_clean_csv` record flush (lines 42-46/56-60), with
the default `max_records=None` so the early `break` never fires: keep the
resolved record when its length is exactly 13. -/
def cleanFlush (st : RecSt) : RecSt :=
  match parse_record_lines st.current with
  | some record => if record.length = 13 then ⟨st.records ++ [record], st.current⟩ else st
  | none => st

/-- One loop iteration of `create_clean_csv.create_clean_csv` (lines 29-53). -/
def cleanStep (st : RecSt) (rawline : List Char) : RecSt :=
  let line := pyRstripChars nlChars rawline
  if uuidAnchorB line then
    ⟨(if st.current.isEmpty then st else cleanFlush st).records, [line]⟩
  else if st.current.isEmpty then st
  else ⟨st.records, st.current ++ [line]⟩

/-- `create_clean_csv.create_clean_csv` over the post-header lines. -/
def create_clean_csv_run (lines : List (List Char)) : RecSt :=
  let st := lines.foldl cleanStep ⟨[], []⟩
  if st.current.isEmpty then st else cleanFlush st

/-- The records `create_clean_csv` writes out. -/
def create_clean_csv_records (lines : List (List Char)) : List (List (List Char)) :=
  (create_clean_csv_run lines).records

/-- Driver state for `fix_competitor_csv.fix_competitor_csv`. -/
structure CompSt where
  records : List (List (List Char))
  current : List (List Char)
  total_processed : Nat
  valid_records : Nat
  fk_violations : Nat
  malformed_records : Nat
deriving DecidableEq

/-- Record flush inside the loop of `fix_competitor_csv.fix_competitor_csv`
(lines 74-89): a resolved 14-field record counts as processed and is either
accepted or booked as a foreign-key violation according to membership of its
`llm_analysis_id` (index 2) in the valid-id set; anything else is malformed. -/
def compFlush (valid_llm_ids : List (List Char)) (st : CompSt) : CompSt :=
  match parse_competitor_record st.current with
  | some record =>
    if record.length = 14 then
      if valid_llm_ids.contains (record.getD 2 []) then
        ⟨st.records ++ [record], st.current, st.total_processed + 1,
         st.valid_records + 1, st.fk_violations, st.malformed_records⟩
      else
        ⟨st.records, st.current, st.total_processed + 1,
         st.valid_records, st.fk_violations + 1, st.malformed_records⟩
    else
      ⟨st.records, st.current, st.total_processed, st.valid_records,
       st.fk_violations, st.malformed_records + 1⟩
  | none =>
    ⟨st.records, st.current, st.total_processed, st.valid_records,
     st.fk_violations, st.malformed_records + 1⟩

/-- End-of-input flush of `fix_competitor_csv.fix_competitor_csv`
(lines 99-109); unlike the loop flush it does not book malformed records. -/
def compFlushEnd (valid_llm_ids : List (List Char)) (st : CompSt) : CompSt :=
  match parse_competitor_record st.current with
  | some record =>
    if record.length = 14 then
      if valid_llm_ids.contains (record.getD 2 []) then
        ⟨st.records ++ [record], st.current, st.total_processed + 1,
         st.valid_records + 1, st.fk_violations, st.malformed_records⟩
      else
        ⟨st.records, st.current, st.total_processed + 1,
         st.valid_records, st.fk_violations + 1, st.malformed_records⟩
    else st
  | none => st

/-- One loop iteration of `fix_competitor_csv.fix_competitor_csv` (lines 65-96). -/
def compStep (valid_llm_ids : List (List Char)) (st : CompSt) (rawline : List Char) : CompSt :=
  let line := pyRstripChars nlChars rawline
  if uuidAnchorB line then
    let st' := if st.current.isEmpty then st else compFlush valid_llm_ids st
    ⟨st'.records, [line], st'.total_processed, st'.valid_records,
     st'.fk_violations, st'.malformed_records⟩
  else if st.current.isEmpty then st
  else ⟨st.records, st.current ++ [line], st.total_processed, st.valid_records,
        st.fk_violations, st.malformed_records⟩

/-- The loop of `fix_competitor_csv.fix_competitor_csv` without the final
flush (the state after any number of processed lines). -/
def fix_competitor_csv_loop (valid_llm_ids : List (List Char))
    (lines : List (List Char)) : CompSt :=
  lines.foldl (compStep valid_llm_ids) ⟨[], [], 0, 0, 0, 0⟩

/-- `fix_competitor_csv.fix_competitor_csv` over the post-header lines. -/
def fix_competitor_csv_run (valid_llm_ids : List (List Char))
    (lines : List (List Char)) : CompSt :=
  let st := fix_competitor_csv_loop valid_llm_ids lines
  if st.current.isEmpty then st else compFlushEnd valid_llm_ids st

/-- Driver state for `fix_competitor_csv_final.fix_competitor_csv_final`
(it keeps no malformed counter). -/
structure CfSt where
  records : List (List (List Char))
  current : List (List Char)
  total_processed : Nat
  valid_records : Nat
  fk_violations : Nat
deriving DecidableEq

/-- Record flush of `fix_competitor_csv_final.fix_competitor_csv_final`
(lines 57-68 in the loop and, with identical text, lines 78-88 at the end). -/
def cfFlush (valid_llm_ids : List (List Char)) (st : CfSt) : CfSt :=
  match parse_competitor_record_robust st.current with
  | some record =>
    if record.length = 14 then
      if valid_llm_ids.contains (record.getD 2 []) then
        ⟨st.records ++ [record], st.current, st.total_processed + 1,
         st.valid_records + 1, st.fk_violations⟩
      else
        ⟨st.records, st.current, st.total_processed + 1,
         st.valid_records, st.fk_violations + 1⟩
    else st
  | none => st

/-- One loop iteration of `fix_competitor_csv_final.fix_competitor_csv_final`
(lines 48-75). -/
def cfStep (valid_llm_ids : List (List Char)) (st : CfSt) (rawline : List Char) : CfSt :=
  let line := pyRstripChars nlChars rawline
  if uuidAnchorB line then
    let st' := if st.current.isEmpty then st else cfFlush valid_llm_ids st
    ⟨st'.records, [line], st'.total_processed, st'.valid_records, st'.fk_violations⟩
  else if st.current.isEmpty then st
  else ⟨st.records, st.current ++ [line], st.total_processed, st.valid_records,
        st.fk_violations⟩

/-- The loop of `fix_competitor_csv_final.fix_competitor_csv_final` without
the final flush. -/
def fix_competitor_csv_final_loop (valid_llm_ids : List (List Char))
    (lines : List (List Char)) : CfSt :=
  lines.foldl (cfStep valid_llm_ids) ⟨[], [], 0, 0, 0⟩

/-- `fix_competitor_csv_final.fix_competitor_csv_final` over the post-header
lines. -/
def fix_competitor_csv_final_run (valid_llm_ids : List (List Char))
    (lines : List (List Char)) : CfSt :=
  let st := fix_competitor_csv_final_loop valid_llm_ids lines
  if st.current.isEmpty then st else cfFlush valid_llm_ids st

/-- `re.sub(r'\s+', ' ', s)`: collapse every whitespace run to one space.
The flag records whether the previous character was whitespace. -/
def collapseWsAux (prevSpace : Bool) : List Char → List Char
  | [] => []
  | c :: rest =>
    if isPySpace c then
      if prevSpace then collapseWsAux true rest
      else ' ' :: collapseWsAux true rest
    else c :: collapseWsAux false rest

/-- `re.sub(r'\s+', ' ', s)`. -/
def collapseWs (s : List Char) : List Char :=
  collapseWsAux false s

/-- Driver state for `fix_csv_simple.fix_csv_simple`: it accumulates the open
record as one string (`current_record`), not a list of lines. -/
structure SimpleSt where
  fixed_lines : List (List Char)
  current : List Char
deriving DecidableEq

/-- Record flush of `fix_csv_simple.fix_csv_simple` (lines 37-41/51-54):
emit `re.sub(r'\s+', ' ', current_record.strip())` when the stripped
accumulator is nonempty. -/
def simpleFlush (st : SimpleSt) : SimpleSt :=
  if (pyStripWs st.current).isEmpty then st
  else ⟨st.fixed_lines ++ [collapseWs (pyStripWs st.current)], st.current⟩

/-- One loop iteration of `fix_csv_simple.fix_csv_simple` (lines 28-48). -/
def simpleStep (st : SimpleSt) (rawline : List Char) : SimpleSt :=
  let line := pyRstripChars nlChars rawline
  if uuidAnchorB line then ⟨(simpleFlush st).fixed_lines, line⟩
  else if st.current.isEmpty then st
  else ⟨st.fixed_lines, st.current ++ ' ' :: line⟩

/-- `fix_csv_simple.fix_csv_simple` over the post-header lines (the header
line it also emits is plumbing and omitted). -/
def fix_csv_simple_run (lines : List (List Char)) : SimpleSt :=
  simpleFlush (lines.foldl simpleStep ⟨[], []⟩)

/-- The fixed record lines `fix_csv_simple` writes out. -/
def fix_csv_simple_records (lines : List (List Char)) : List (List Char) :=
  (fix_csv_simple_run lines).fixed_lines

/-! ## `fix_llm_csv.py`: validator and text sanitizer

`LLMCSVCleaner.validate_row` builds a verdict with separate error and warning
lists; messages are modelled as tags.  `uuid.UUID` acceptance and the numeric
parsers follow CPython behaviour on ordinary literals (decimal floats are
modelled over `ℚ`; exotic forms such as `inf`, `nan` or digit-group
underscores do not occur in the claims and are omitted). -/

/-- Digit string to number. -/
def digitsToNat (ds : List Char) : Nat :=
  ds.foldl (fun a c => a * 10 + (c.toNat - 48)) 0

/-- A nonempty all-digit string, as required after the sign by `int()`. -/
def parseDigits (s : List Char) : Option Nat :=
  if s.isEmpty || !s.all isDigitB then none else some (digitsToNat s)

/-- Python `int(s)`. -/
def parsePyInt (s : List Char) : Option Int :=
  match pyStripWs s with
  | '+' :: rest => (parseDigits rest).map (fun n => (n : Int))
  | '-' :: rest => (parseDigits rest).map (fun n => -(n : Int))
  | t => (parseDigits t).map (fun n => (n : Int))

/-- Optional exponent part of a float literal. -/
def parseExpQ : List Char → Option ℚ
  | [] => some 1
  | c :: rest =>
    if c = 'e' || c = 'E' then
      match rest with
      | '+' :: ds => (parseDigits ds).map (fun k => (10 : ℚ) ^ k)
      | '-' :: ds => (parseDigits ds).map (fun k => 1 / (10 : ℚ) ^ k)
      | ds => (parseDigits ds).map (fun k => (10 : ℚ) ^ k)
    else none

/-- Unsigned decimal float literal: `digits`, `digits.digits`, `.digits` or
`digits.`, with an optional exponent. -/
def parseUnsignedQ (t : List Char) : Option ℚ :=
  let ip := t.takeWhile isDigitB
  match t.drop ip.length with
  | '.' :: r2 =>
    let fp := r2.takeWhile isDigitB
    if ip.isEmpty && fp.isEmpty then none
    else
      (parseExpQ (r2.drop fp.length)).map
        (fun e => ((digitsToNat (ip ++ fp) : ℚ) / (10 : ℚ) ^ fp.length) * e)
  | r1 =>
    if ip.isEmpty then none
    else (parseExpQ r1).map (fun e => (digitsToNat ip : ℚ) * e)

/-- Python `float(s)` on decimal literals, over `ℚ`. -/
def parsePyFloat (s : List Char) : Option ℚ :=
  match pyStripWs s with
  | '+' :: rest => parseUnsignedQ rest
  | '-' :: rest => (parseUnsignedQ rest).map (fun q => -q)
  | t => parseUnsignedQ t

/-- Acceptance of `uuid.UUID(h)`, modelled from CPython: delete every
`urn:` and `uuid:`, strip braces from the ends, delete every `-`, and require
exactly 32 hexadecimal digits. -/
def uuidAccepts (h : List Char) : Bool :=
  let h1 := pyReplaceL ( "urn:").toList [] h
  let h2 := pyReplaceL ( "uuid:").toList [] h1
  let h3 := pyStripChars [Char.ofNat 123, Char.ofNat 125] h2
  let h4 := pyReplaceChar '-' [] h3
  decide (h4.length = 32) && h4.all isHexAny

/-- `LLMCSVCleaner.is_valid_uuid` (lines 63-71). -/
def is_valid_uuid (value : List Char) : Bool :=
  if value.isEmpty || (pyStripWs value).isEmpty then false
  else uuidAccepts (pyStripWs value)

/-- `LLMCSVCleaner.valid_llm_providers` (lines 49-51). -/
def valid_llm_providers : List (List Char) :=
  [( "chatgpt").toList, ( "claude").toList, ( "gemini").toList,
   ( "perplexity").toList, ( "gpt-4").toList, ( "claude-3").toList]

/-- The boolean literals accepted (case-insensitively) for `is_mentioned`
(line 131). -/
def boolLiterals : List (List Char) :=
  [( "true").toList, ( "false").toList, ( "t").toList, ( "f").toList,
   ( "1").toList, ( "0").toList, []]

/-- Tags for the validation messages of `LLMCSVCleaner.validate_row`. -/
inductive VMsg where
  | wrongColumnCount (n : Nat)
  | invalidUuid (idx : Nat)
  | invalidOptionalUuid
  | invalidProvider
  | invalidBoolean
  | rankTooSmall (n : Int)
  | invalidRank
  | sentimentOutOfRange (q : ℚ)
  | invalidSentiment
  | confidenceOutOfRange (q : ℚ)
  | invalidConfidence
deriving DecidableEq

/-- The verdict structure returned by `LLMCSVCleaner.validate_row`. -/
structure Validation where
  is_valid : Bool
  errors : List VMsg
  warnings : List VMsg
deriving DecidableEq

/-- `LLMCSVCleaner.validate_row` (lines 95-162).  Note that line 122 assigns
the emptied `analysis_session_id` only to the method-local `row_dict`; the
caller's `row` list is untouched, so the verdict is this function's entire
effect. -/
def validate_row (row : List (List Char)) : Validation :=
  if row.length ≠ 13 then ⟨false, [VMsg.wrongColumnCount row.length], []⟩
  else
    let e_id := if is_valid_uuid (row.getD 0 []) then [] else [VMsg.invalidUuid 0]
    let e_prompt := if is_valid_uuid (row.getD 1 []) then [] else [VMsg.invalidUuid 1]
    let e_website := if is_valid_uuid (row.getD 3 []) then [] else [VMsg.invalidUuid 3]
    let w_opt :=
      if !(row.getD 12 []).isEmpty && !is_valid_uuid (row.getD 12 [])
      then [VMsg.invalidOptionalUuid] else []
    let e_provider :=
      if valid_llm_providers.contains (row.getD 2 []) then [] else [VMsg.invalidProvider]
    let w_bool :=
      if boolLiterals.contains (pyStripWs ((row.getD 4 []).map Char.toLower))
      then [] else [VMsg.invalidBoolean]
    let rp := row.getD 5 []
    let rankRes : List VMsg × List VMsg :=
      if !rp.isEmpty && !(pyStripWs rp).isEmpty then
        match parsePyInt rp with
        | some n => if n < -1 then ([VMsg.rankTooSmall n], []) else ([], [])
        | none => ([], [VMsg.invalidRank])
      else ([], [])
    let sp := row.getD 6 []
    let sentRes : List VMsg × List VMsg :=
      if !sp.isEmpty && !(pyStripWs sp).isEmpty then
        match parsePyFloat sp with
        | some q =>
          if -1 ≤ q ∧ q ≤ 1 then ([], []) else ([VMsg.sentimentOutOfRange q], [])
        | none => ([], [VMsg.invalidSentiment])
      else ([], [])
    let cp := row.getD 7 []
    let confRes : List VMsg × List VMsg :=
      if !cp.isEmpty && !(pyStripWs cp).isEmpty then
        match parsePyFloat cp with
        | some q =>
          if 0 ≤ q ∧ q ≤ 1 then ([], []) else ([VMsg.confidenceOutOfRange q], [])
        | none => ([], [VMsg.invalidConfidence])
      else ([], [])
    let errors := e_id ++ e_prompt ++ e_website ++ e_provider
      ++ rankRes.1 ++ sentRes.1 ++ confRes.1
    let warnings := w_opt ++ w_bool ++ rankRes.2 ++ sentRes.2 ++ confRes.2
    ⟨errors.isEmpty, errors, warnings⟩

/-- The truncation marker appended by `LLMCSVCleaner.clean_text_field`. -/
def truncMarker : List Char := ( "... [TRUNCATED]").toList

/-- The escaping steps of `LLMCSVCleaner.clean_text_field` (lines 78-86):
delete NUL bytes, escape newlines and carriage returns, double quotes. -/
def escapeLLMText (text : List Char) : List Char :=
  pyReplaceChar '"' [ '"', '"']
    (pyReplaceChar '\r' [ '\\', 'r']
      (pyReplaceChar '\n' [ '\\', 'n']
        (pyReplaceChar (Char.ofNat 0) [] text)))

/-- `LLMCSVCleaner.clean_text_field` (lines 73-93): escape, then truncate to
50000 characters plus the marker when the escaped text is longer than that. -/
def clean_text_field (text : List Char) : List Char :=
  if text.isEmpty then []
  else
    let t := escapeLLMText text
    if 50000 < t.length then t.take 50000 ++ truncMarker else t

/-- The row written by `LLMCSVCleaner.process_file` for a well-formed 13-field
row (lines 269-283): both branches (valid and invalid) write the row with only
`response_text` and `summary_text` passed through `clean_text_field`. -/
def emit_row (row : List (List Char)) : List (List Char) :=
  let r1 := row.set 8 (clean_text_field (row.getD 8 []))
  r1.set 9 (clean_text_field (r1.getD 9 []))

/-- The row exercising the optional-identifier path: canonical UUIDs in the
required fields, empty numeric fields, and a non-UUID `analysis_session_id`. -/
def c7row : List (List Char) :=
  [( "a1b2c3d4-e5f6-7890-abcd-ef1234567890").toList,
   ( "b1b2c3d4-e5f6-7890-abcd-ef1234567890").toList,
   ( "chatgpt").toList,
   ( "c1b2c3d4-e5f6-7890-abcd-ef1234567890").toList,
   ( "true").toList, [], [], [],
   ( "resp").toList, ( "summ").toList,
   ( "2025-01-01 00:00:00.000000+00").toList,
   ( "2025-01-01 00:00:00.000000+00").toList,
   ( "not-a-uuid").toList]



/-! ## Derived views used in the claim statements -/

/-- The comma-part positions in which `fix_csv_final.process_record_lines`
finds its short-pattern timestamps (code lines 100-106). -/
def finalTsPositions (lines : List (List Char)) : List Nat :=
  ((((pySplit ',' (pyStripWs (joinSpace lines))).drop 8).enum).filter
    (fun p => containsTsShort p.2)).map Prod.fst

/-- The comma-separated parts after the eight prefix fields of
`fix_csv_final.process_record_lines` (line 100). -/
def finalRemainingParts (lines : List (List Char)) : List (List Char) :=
  (pySplit ',' (pyStripWs (joinSpace lines))).drop 8

/-- The `analyzed_at` field `fix_csv_final` assembles (lines 111-118 and 137):
the comma-rejoin of the parts from the second-to-last short-pattern-matching
part up to, excluding, the last one (any intervening non-matching parts are
folded in), whitespace-stripped. -/
def finalAnalyzedAt (lines : List (List Char)) : List Char :=
  pyStripWs (joinComma (((finalRemainingParts lines).drop
      ((finalTsPositions lines).getD ((finalTsPositions lines).length - 2) 0)).take
    ((finalTsPositions lines).getD ((finalTsPositions lines).length - 1) 0
      - (finalTsPositions lines).getD ((finalTsPositions lines).length - 2) 0)))

/-- The `created_at` field `fix_csv_final` assembles (lines 119 and 138): the
last short-pattern-matching part alone, whitespace-stripped. -/
def finalCreatedAt (lines : List (List Char)) : List Char :=
  pyStripWs (joinComma (((finalRemainingParts lines).drop
      ((finalTsPositions lines).getD ((finalTsPositions lines).length - 1) 0)).take 1))

/-- The joined line that `create_clean_csv.parse_record_lines` scans with the
full timestamp pattern. -/
def cleanFullLine (lines : List (List Char)) : List Char :=
  pyStripWs (joinSpace lines)

/-- Which resolved records the `fix_csv_final` loop keeps for a flushed group
(`if record:` on line 40). -/
def finalAccept (g : List (List Char)) : Option (List (List Char)) :=
  match process_record_lines g with
  | some record => if record.isEmpty then none else some record
  | none => none

/-- Which resolved records the `create_clean_csv` loop keeps for a flushed
group (`if record and len(record) == 13:` on line 44). -/
def cleanAccept (g : List (List Char)) : Option (List (List Char)) :=
  match parse_record_lines g with
  | some record => if record.length = 13 then some record else none
  | none => none

/-- Which resolved records the `fix_competitor_csv` loop keeps for a flushed
group (14 fields and a known parent id, lines 76-83). -/
def compAccept (valid_llm_ids : List (List Char)) (g : List (List Char)) :
    Option (List (List Char)) :=
  match parse_competitor_record g with
  | some record =>
    if record.length = 14 then
      if valid_llm_ids.contains (record.getD 2 []) then some record else none
    else none
  | none => none

/-- The fixed line `fix_csv_simple` emits for one line group. -/
def simpleClean (g : List (List Char)) : List Char :=
  collapseWs (pyStripWs (joinSpace g))

/-- A well-formed logical-record line group: nonempty, opened by an anchor
line, with no anchor line in its continuation. -/
def goodGroupB (g : List (List Char)) : Bool :=
  !g.isEmpty && uuidAnchorB (g.headD []) && (g.tail.all (fun l => !uuidAnchorB l))

/-- A free-text field longer than the 50000-character cap whose first
character is a NUL byte. -/
def c8nulInput : List Char :=
  Char.ofNat 0 :: List.replicate 50000 'a'

/-- A free-text field of 50001 ordinary characters. -/
def c8bigInput : List Char :=
  List.replicate 50001 'a'


/-! ## Sanity checks of the embedding on concrete inputs -/

example : uuidAnchorB ( "a1b2c3d4-e5f6-7890-abcd-ef1234567890,x").toList = true := by decide

example : uuidAnchorB ( "a1b2c3d4-e5f6-7890-abcd-ef1234567890").toList = false := by decide

example : containsTsShort ( "on 2025-01-01 12:00:00 we met").toList = true := by decide

example : tsFindAllFull ( "a 2025-01-01 00:00:00.000000+00,b").toList = [(2, 31)] := by decide

example : pySplit ',' ( "a,,b").toList = [[ 'a'], [], [ 'b']] := by decide

example : pyRsplitOnce [ '"', ',', '"'] ( "\"hi\",\"ho\"").toList
    = [( "\"hi").toList, ( "ho\"").toList] := by decide

example : parse_record_lines [c4line] = some c4cleanRec := by decide

example : process_record_lines [c4line] = some c4finalRec := by decide

example : process_record_lines [l2line] = some l2rec := by decide

example : parse_competitor_record [c6line] = some c6rec := by decide

example : parse_competitor_record_robust [c6line] = some c6rec := by decide

example : (validate_row c7row).is_valid = true := by decide

example : (validate_row c7row).warnings = [VMsg.invalidOptionalUuid] := by decide

example : (emit_row c7row).getD 12 [] = ( "not-a-uuid").toList := by decide

example : is_valid_uuid ( "a1b2c3d4-e5f6-7890-abcd-ef1234567890").toList = true := by decide

example : is_valid_uuid ( "not-a-uuid").toList = false := by decide

example : parsePyInt ( " -3 ").toList = some (-3) := by decide

/-! ## Generic loop lemmas -/

/-- A property preserved by each step is preserved by the whole fold. -/
theorem foldl_pres {α γ : Type _} (P : α → Prop) (f : α → γ → α)
    (hf : ∀ a c, P a → P (f a c)) :
    ∀ (l : List γ) (a : α), P a → P (l.foldl f a) := by
  intro l
  induction l with
  | nil => intro a ha; simpa using ha
  | cons c cs ih => intro a ha; simpa using ih _ (hf a c ha)

/-- A simulation relation preserved by corresponding steps is preserved by
folding both machines over the same input. -/
theorem foldl_rel {α β γ : Type _} (R : α → β → Prop) (f : α → γ → α) (g : β → γ → β)
    (hfg : ∀ a b c, R a b → R (f a c) (g b c)) :
    ∀ (l : List γ) (a : α) (b : β), R a b → R (l.foldl f a) (l.foldl g b) := by
  intro l
  induction l with
  | nil => intro a b hab; simpa using hab
  | cons c cs ih => intro a b hab; simpa using ih _ _ (hfg a b c hab)

/-! ## Counter invariants of the competitor pipelines -/

theorem compFlush_counters (ids : List (List Char)) (st : CompSt)
    (h1 : st.total_processed = st.valid_records + st.fk_violations)
    (h2 : st.records.length = st.valid_records) :
    (compFlush ids st).total_processed
        = (compFlush ids st).valid_records + (compFlush ids st).fk_violations
      ∧ (compFlush ids st).records.length = (compFlush ids st).valid_records := by
  unfold compFlush
  split
  · split
    · split
      · refine ⟨?_, ?_⟩
        · dsimp only; omega
        · dsimp only; simp [h2]
      · refine ⟨?_, ?_⟩
        · dsimp only; omega
        · exact h2
    · exact ⟨h1, h2⟩
  · exact ⟨h1, h2⟩

theorem compFlushEnd_counters (ids : List (List Char)) (st : CompSt)
    (h1 : st.total_processed = st.valid_records + st.fk_violations)
    (h2 : st.records.length = st.valid_records) :
    (compFlushEnd ids st).total_processed
        = (compFlushEnd ids st).valid_records + (compFlushEnd ids st).fk_violations
      ∧ (compFlushEnd ids st).records.length = (compFlushEnd ids st).valid_records := by
  unfold compFlushEnd
  split
  · split
    · split
      · refine ⟨?_, ?_⟩
        · dsimp only; omega
        · dsimp only; simp [h2]
      · refine ⟨?_, ?_⟩
        · dsimp only; omega
        · exact h2
    · exact ⟨h1, h2⟩
  · exact ⟨h1, h2⟩

theorem compStep_counters (ids : List (List Char)) (st : CompSt) (line : List Char)
    (h : st.total_processed = st.valid_records + st.fk_violations
      ∧ st.records.length = st.valid_records) :
    (compStep ids st line).total_processed
        = (compStep ids st line).valid_records + (compStep ids st line).fk_violations
      ∧ (compStep ids st line).records.length = (compStep ids st line).valid_records := by
  simp only [compStep]
  split
  · dsimp only
    split
    · exact h
    · exact compFlush_counters ids st h.1 h.2
  · split
    · exact h
    · exact h

theorem comp_loop_counters (ids : List (List Char)) (lines : List (List Char)) :
    (fix_competitor_csv_loop ids lines).total_processed
        = (fix_competitor_csv_loop ids lines).valid_records
          + (fix_competitor_csv_loop ids lines).fk_violations
      ∧ (fix_competitor_csv_loop ids lines).records.length
        = (fix_competitor_csv_loop ids lines).valid_records := by
  exact foldl_pres
    (fun st : CompSt => st.total_processed = st.valid_records + st.fk_violations
      ∧ st.records.length = st.valid_records)
    (compStep ids) (fun st line => compStep_counters ids st line) lines ⟨[], [], 0, 0, 0, 0⟩
    (by simp)

theorem comp_run_counters (ids : List (List Char)) (lines : List (List Char)) :
    (fix_competitor_csv_run ids lines).total_processed
        = (fix_competitor_csv_run ids lines).valid_records
          + (fix_competitor_csv_run ids lines).fk_violations
      ∧ (fix_competitor_csv_run ids lines).records.length
        = (fix_competitor_csv_run ids lines).valid_records := by
  have h := comp_loop_counters ids lines
  simp only [fix_competitor_csv_run]
  split
  · exact h
  · exact compFlushEnd_counters ids _ h.1 h.2

theorem cfFlush_counters (ids : List (List Char)) (st : CfSt)
    (h1 : st.total_processed = st.valid_records + st.fk_violations)
    (h2 : st.records.length = st.valid_records) :
    (cfFlush ids st).total_processed
        = (cfFlush ids st).valid_records + (cfFlush ids st).fk_violations
      ∧ (cfFlush ids st).records.length = (cfFlush ids st).valid_records := by
  unfold cfFlush
  split
  · split
    · split
      · refine ⟨?_, ?_⟩
        · dsimp only; omega
        · dsimp only; simp [h2]
      · refine ⟨?_, ?_⟩
        · dsimp only; omega
        · exact h2
    · exact ⟨h1, h2⟩
  · exact ⟨h1, h2⟩

theorem cfStep_counters (ids : List (List Char)) (st : CfSt) (line : List Char)
    (h : st.total_processed = st.valid_records + st.fk_violations
      ∧ st.records.length = st.valid_records) :
    (cfStep ids st line).total_processed
        = (cfStep ids st line).valid_records + (cfStep ids st line).fk_violations
      ∧ (cfStep ids st line).records.length = (cfStep ids st line).valid_records := by
  simp only [cfStep]
  split
  · dsimp only
    split
    · exact h
    · exact cfFlush_counters ids st h.1 h.2
  · split
    · exact h
    · exact h

theorem cf_loop_counters (ids : List (List Char)) (lines : List (List Char)) :
    (fix_competitor_csv_final_loop ids lines).total_processed
        = (fix_competitor_csv_final_loop ids lines).valid_records
          + (fix_competitor_csv_final_loop ids lines).fk_violations
      ∧ (fix_competitor_csv_final_loop ids lines).records.length
        = (fix_competitor_csv_final_loop ids lines).valid_records := by
  exact foldl_pres
    (fun st : CfSt => st.total_processed = st.valid_records + st.fk_violations
      ∧ st.records.length = st.valid_records)
    (cfStep ids) (fun st line => cfStep_counters ids st line) lines ⟨[], [], 0, 0, 0⟩
    (by simp)

theorem cf_run_counters (ids : List (List Char)) (lines : List (List Char)) :
    (fix_competitor_csv_final_run ids lines).total_processed
        = (fix_competitor_csv_final_run ids lines).valid_records
          + (fix_competitor_csv_final_run ids lines).fk_violations
      ∧ (fix_competitor_csv_final_run ids lines).records.length
        = (fix_competitor_csv_final_run ids lines).valid_records := by
  have h := cf_loop_counters ids lines
  simp only [fix_competitor_csv_final_run]
  split
  · exact h
  · exact cfFlush_counters ids _ h.1 h.2

/-! ## Foreign-key rejection behaviour of the flushes -/

theorem compFlush_fk_reject (ids : List (List Char)) (st : CompSt) (r : List (List Char))
    (hp : parse_competitor_record st.current = some r)
    (hl : r.length = 14)
    (hm : ids.contains (r.getD 2 []) = false) :
    compFlush ids st = ⟨st.records, st.current, st.total_processed + 1,
      st.valid_records, st.fk_violations + 1, st.malformed_records⟩ := by
  unfold compFlush
  rw [hp]
  dsimp only
  rw [if_pos hl, if_neg (by intro hc; rw [hm] at hc; exact Bool.false_ne_true hc)]

theorem cfFlush_fk_reject (ids : List (List Char)) (st : CfSt) (r : List (List Char))
    (hp : parse_competitor_record_robust st.current = some r)
    (hl : r.length = 14)
    (hm : ids.contains (r.getD 2 []) = false) :
    cfFlush ids st = ⟨st.records, st.current, st.total_processed + 1,
      st.valid_records, st.fk_violations + 1⟩ := by
  unfold cfFlush
  rw [hp]
  dsimp only
  rw [if_pos hl, if_neg (by intro hc; rw [hm] at hc; exact Bool.false_ne_true hc)]

/-! ## Arity of accepted records -/

theorem process_record_lines_length (g : List (List Char)) (r : List (List Char))
    (h : process_record_lines g = some r) : r.length = 13 := by
  simp only [process_record_lines] at h
  split at h
  · exact absurd h (by simp)
  · split at h
    · injection h with h'
      subst h'
      simp [List.length_take, List.length_append]
      omega
    · exact absurd h (by simp)

theorem finalFlush_arity (st : RecSt) (h : ∀ r ∈ st.records, r.length = 13) :
    ∀ r ∈ (finalFlush st).records, r.length = 13 := by
  unfold finalFlush
  split
  · split
    · exact h
    · intro r hr
      rcases List.mem_append.mp hr with hm | hm
      · exact h r hm
      · rw [List.mem_singleton.mp hm]
        exact process_record_lines_length st.current _ (by assumption)
  · exact h

theorem finalStep_arity (st : RecSt) (line : List Char)
    (h : ∀ r ∈ st.records, r.length = 13) :
    ∀ r ∈ (finalStep st line).records, r.length = 13 := by
  simp only [finalStep]
  split
  · dsimp only
    split
    · exact h
    · exact finalFlush_arity st h
  · split
    · exact h
    · exact h

theorem fix_csv_final_arity (lines : List (List Char)) :
    ∀ r ∈ fix_csv_final_records lines, r.length = 13 := by
  have hloop : ∀ r ∈ (lines.foldl finalStep ⟨[], []⟩).records, r.length = 13 :=
    foldl_pres (fun st : RecSt => ∀ r ∈ st.records, r.length = 13)
      finalStep (fun st line => finalStep_arity st line) lines ⟨[], []⟩ (by simp)
  simp only [fix_csv_final_records, fix_csv_final_run]
  split
  · exact hloop
  · exact finalFlush_arity _ hloop

theorem compFlush_arity (ids : List (List Char)) (st : CompSt)
    (h : ∀ r ∈ st.records, r.length = 14) :
    ∀ r ∈ (compFlush ids st).records, r.length = 14 := by
  unfold compFlush
  split
  · split
    · split
      · intro r hr
        rcases List.mem_append.mp hr with hm | hm
        · exact h r hm
        · rw [List.mem_singleton.mp hm]
          assumption
      · exact h
    · exact h
  · exact h

theorem compFlushEnd_arity (ids : List (List Char)) (st : CompSt)
    (h : ∀ r ∈ st.records, r.length = 14) :
    ∀ r ∈ (compFlushEnd ids st).records, r.length = 14 := by
  unfold compFlushEnd
  split
  · split
    · split
      · intro r hr
        rcases List.mem_append.mp hr with hm | hm
        · exact h r hm
        · rw [List.mem_singleton.mp hm]
          assumption
      · exact h
    · exact h
  · exact h

theorem compStep_arity (ids : List (List Char)) (st : CompSt) (line : List Char)
    (h : ∀ r ∈ st.records, r.length = 14) :
    ∀ r ∈ (compStep ids st line).records, r.length = 14 := by
  simp only [compStep]
  split
  · dsimp only
    split
    · exact h
    · exact compFlush_arity ids st h
  · split
    · exact h
    · exact h

theorem fix_competitor_csv_arity (ids : List (List Char)) (lines : List (List Char)) :
    ∀ r ∈ (fix_competitor_csv_run ids lines).records, r.length = 14 := by
  have hloop : ∀ r ∈ (fix_competitor_csv_loop ids lines).records, r.length = 14 :=
    foldl_pres (fun st : CompSt => ∀ r ∈ st.records, r.length = 14)
      (compStep ids) (fun st line => compStep_arity ids st line) lines ⟨[], [], 0, 0, 0, 0⟩
      (by simp)
  simp only [fix_competitor_csv_run]
  split
  · exact hloop
  · exact compFlushEnd_arity ids _ hloop

/-! ## Segmenter characterisation -/

theorem filterMap_singleton {α β : Type _} (f : α → Option β) (a : α) :
    [a].filterMap f = (f a).toList := by
  cases h : f a <;> simp [h]

theorem dropWhile_nil_all {α : Type _} (p : α → Bool) :
    ∀ l : List α, l.dropWhile p = [] → ∀ x ∈ l, p x = true := by
  intro l
  induction l with
  | nil => intro _ x hx; cases hx
  | cons a as ih =>
    intro h x hx
    by_cases hp : p a
    · rcases List.mem_cons.mp hx with rfl | hx'
      · exact hp
      · exact ih (by simpa [List.dropWhile, hp] using h) x hx'
    · simp [List.dropWhile, hp] at h

theorem anchor_head (l : List Char) (h : uuidAnchorB l = true) :
    ∃ c cs, l = c :: cs ∧ isLowerHex c = true := by
  have hlen : 37 ≤ l.length := by
    simp only [uuidAnchorB, Bool.and_eq_true, decide_eq_true_eq] at h
    exact h.1.1
  have hall := by
    simp only [uuidAnchorB, Bool.and_eq_true, decide_eq_true_eq] at h
    exact h.1.2
  cases l with
  | nil => simp at hlen
  | cons c cs =>
    refine ⟨c, cs, rfl, ?_⟩
    have h0 := List.all_eq_true.mp hall 0 (by simp)
    simpa [uuidCharOk] using h0

theorem lowerHex_not_space (c : Char) (h : isLowerHex c = true) : isPySpace c = false := by
  by_contra hsp
  have hsp' : isPySpace c = true := by
    cases hb : isPySpace c
    · exact absurd hb hsp
    · rfl
  simp only [isPySpace, Bool.or_eq_true, decide_eq_true_eq] at hsp'
  rcases hsp' with ((((rfl | rfl) | rfl) | rfl) | rfl) | rfl <;> simp [isLowerHex] at h

theorem pyStripWs_cons_ne_nil (c : Char) (t : List Char) (h : isPySpace c = false) :
    (pyStripWs (c :: t)).isEmpty = false := by
  have hleft : stripLeftP isPySpace (c :: t) = c :: t := by
    simp [stripLeftP, List.dropWhile, h]
  by_contra hempty
  have hnil : pyStripWs (c :: t) = [] := by
    cases hx : pyStripWs (c :: t)
    · rfl
    · simp [hx] at hempty
  have hdrop : (c :: t).reverse.dropWhile isPySpace = [] := by
    have hthis := hnil
    simp only [pyStripWs, pyStripP, stripRightP, hleft] at hthis
    exact List.reverse_eq_nil_iff.mp hthis
  have : ∀ x ∈ (c :: t).reverse, isPySpace x = true :=
    dropWhile_nil_all isPySpace ((c :: t).reverse) hdrop
  have hc := this c (by simp)
  rw [h] at hc
  exact Bool.false_ne_true hc

theorem joinSpace_cons_of_ne (l : List Char) (ls : List (List Char)) (h : ls ≠ []) :
    joinSpace (l :: ls) = l ++ ' ' :: joinSpace ls := by
  cases ls with
  | nil => exact absurd rfl h
  | cons m ms => rfl

theorem joinSpace_append_single (g : List (List Char)) (x : List Char) (h : g ≠ []) :
    joinSpace (g ++ [x]) = joinSpace g ++ ' ' :: x := by
  induction g with
  | nil => exact absurd rfl h
  | cons l ls ih =>
    cases ls with
    | nil => rfl
    | cons m ms =>
      have hne : (m :: ms : List (List Char)) ≠ [] := by simp
      rw [List.cons_append, joinSpace_cons_of_ne l ((m :: ms) ++ [x]) (by simp),
        joinSpace_cons_of_ne l (m :: ms) hne, ih hne]
      simp

theorem good_strip_join_ne (g : List (List Char)) (h : goodGroupB g = true) :
    (pyStripWs (joinSpace g)).isEmpty = false := by
  simp only [goodGroupB, Bool.and_eq_true] at h
  obtain ⟨⟨hne, hhead⟩, -⟩ := h
  cases g with
  | nil => simp at hne
  | cons l ls =>
    obtain ⟨c, cs, rfl, hhex⟩ := anchor_head l (by simpa using hhead)
    have hns := lowerHex_not_space c hhex
    cases ls with
    | nil => exact pyStripWs_cons_ne_nil c cs hns
    | cons m ms =>
      rw [joinSpace_cons_of_ne _ _ (by simp)]
      exact pyStripWs_cons_ne_nil c _ hns

theorem good_singleton (l : List Char) (h : uuidAnchorB l = true) :
    goodGroupB [l] = true := by
  simp [goodGroupB, h]

theorem good_append (g : List (List Char)) (l : List Char)
    (hg : goodGroupB g = true) (hl : uuidAnchorB l = false) :
    goodGroupB (g ++ [l]) = true := by
  cases g with
  | nil => simp [goodGroupB] at hg
  | cons a as =>
    simp only [goodGroupB, Bool.and_eq_true, List.isEmpty_cons, List.headD_cons,
      Bool.not_eq_true', List.tail_cons, List.all_eq_true] at hg ⊢
    refine ⟨⟨by simp, hg.1.2⟩, ?_⟩
    intro x hx
    rcases List.mem_append.mp hx with hx' | hx'
    · exact hg.2 x hx'
    · rw [List.mem_singleton.mp hx']
      simpa using hl

theorem segStep_good (seg : SegSt) (line : List Char)
    (hg : seg.groups.all goodGroupB = true)
    (hc : (seg.current.isEmpty || goodGroupB seg.current) = true) :
    ((segStep seg line).groups.all goodGroupB = true)
    ∧ ((segStep seg line).current.isEmpty || goodGroupB (segStep seg line).current) = true := by
  simp only [segStep]
  by_cases ha : uuidAnchorB (pyRstripChars nlChars line)
  · rw [if_pos ha]
    by_cases hcur : seg.current.isEmpty
    · refine ⟨by simpa [hcur] using hg, ?_⟩
      simp [good_singleton _ ha]
    · have hgood : goodGroupB seg.current = true := by
        rcases Bool.or_eq_true_iff.mp hc with h | h
        · exact absurd h hcur
        · exact h
      refine ⟨?_, by simp [good_singleton _ ha]⟩
      rw [if_neg hcur, List.all_append, hg]
      simp [hgood]
  · rw [if_neg ha]
    by_cases hcur : seg.current.isEmpty
    · rw [if_pos hcur]
      exact ⟨hg, hc⟩
    · rw [if_neg hcur]
      have hgood : goodGroupB seg.current = true := by
        rcases Bool.or_eq_true_iff.mp hc with h | h
        · exact absurd h hcur
        · exact h
      refine ⟨hg, ?_⟩
      have : uuidAnchorB (pyRstripChars nlChars line) = false := by
        cases hb : uuidAnchorB (pyRstripChars nlChars line)
        · rfl
        · exact absurd hb ha
      simp [good_append _ _ hgood this]

theorem seg_loop_good (lines : List (List Char)) :
    ∀ (gs : List (List (List Char))) (cur : List (List Char)),
    gs.all goodGroupB = true → (cur.isEmpty || goodGroupB cur) = true →
    (segFinish (lines.foldl segStep ⟨gs, cur⟩)).all goodGroupB = true := by
  induction lines with
  | nil =>
    intro gs cur hg hc
    simp only [List.foldl_nil, segFinish]
    by_cases hcur : cur.isEmpty
    · simpa [hcur] using hg
    · rw [if_neg hcur]
      have hgood : goodGroupB cur = true := by
        rcases Bool.or_eq_true_iff.mp hc with h | h
        · exact absurd h hcur
        · exact h
      rw [List.all_append, hg]
      simp [hgood]
  | cons l ls ih =>
    intro gs cur hg hc
    rw [List.foldl_cons]
    have hstep := segStep_good ⟨gs, cur⟩ l hg hc
    exact ih _ _ hstep.1 hstep.2

theorem segmentLines_good (lines : List (List Char)) :
    (segmentLines lines).all goodGroupB = true := by
  exact seg_loop_good lines [] [] (by simp) (by simp)

theorem seg_loop_join (lines : List (List Char)) :
    ∀ (gs : List (List (List Char))) (cur : List (List Char)), cur.isEmpty = false →
    (segFinish (lines.foldl segStep ⟨gs, cur⟩)).flatten
      = gs.flatten ++ cur ++ lines.map (pyRstripChars nlChars) := by
  induction lines with
  | nil =>
    intro gs cur hc
    simp only [List.foldl_nil, segFinish]
    rw [if_neg (by simp [hc])]
    simp
  | cons l ls ih =>
    intro gs cur hc
    rw [List.foldl_cons]
    simp only [segStep]
    by_cases ha : uuidAnchorB (pyRstripChars nlChars l)
    · rw [if_pos ha, if_neg (by simp [hc])]
      rw [ih (gs ++ [cur]) [pyRstripChars nlChars l] (by simp)]
      simp
    · rw [if_neg ha, if_neg (by simp [hc])]
      rw [ih gs (cur ++ [pyRstripChars nlChars l]) (by simp)]
      simp

theorem segmentLines_join (lines : List (List Char)) :
    (segmentLines lines).flatten
      = (lines.map (pyRstripChars nlChars)).dropWhile (fun l => !uuidAnchorB l) := by
  induction lines with
  | nil => rfl
  | cons l ls ih =>
    simp only [segmentLines, List.foldl_cons, List.map_cons, List.dropWhile_cons]
    by_cases ha : uuidAnchorB (pyRstripChars nlChars l)
    · have hstep : segStep ⟨[], []⟩ l = ⟨[], [pyRstripChars nlChars l]⟩ := by
        simp [segStep, ha]
      rw [hstep, seg_loop_join ls [] [pyRstripChars nlChars l] (by simp)]
      simp [ha]
    · have hstep : segStep ⟨[], []⟩ l = ⟨[], []⟩ := by
        simp [segStep, ha]
      rw [hstep]
      have ha' : (!uuidAnchorB (pyRstripChars nlChars l)) = true := by
        simp [ha]
      rw [ha']
      simpa [segmentLines] using ih

/-! ## The drivers factor through the segmenter -/

theorem finalFlush_records (st : RecSt) :
    (finalFlush st).records = st.records ++ (finalAccept st.current).toList
    ∧ (finalFlush st).current = st.current := by
  unfold finalFlush finalAccept
  split
  · split
    · simp
    · simp
  · simp

theorem cleanFlush_records (st : RecSt) :
    (cleanFlush st).records = st.records ++ (cleanAccept st.current).toList
    ∧ (cleanFlush st).current = st.current := by
  unfold cleanFlush cleanAccept
  split
  · split
    · simp
    · simp
  · simp

theorem compFlush_records (ids : List (List Char)) (st : CompSt) :
    (compFlush ids st).records = st.records ++ (compAccept ids st.current).toList
    ∧ (compFlush ids st).current = st.current := by
  unfold compFlush compAccept
  split
  · split
    · split
      · simp
      · simp
    · simp
  · simp

theorem compFlushEnd_records (ids : List (List Char)) (st : CompSt) :
    (compFlushEnd ids st).records = st.records ++ (compAccept ids st.current).toList
    ∧ (compFlushEnd ids st).current = st.current := by
  unfold compFlushEnd compAccept
  split
  · split
    · split
      · simp
      · simp
    · simp
  · simp

theorem finalStep_rel (st : RecSt) (seg : SegSt) (line : List Char)
    (h1 : st.records = seg.groups.filterMap finalAccept)
    (h2 : st.current = seg.current) :
    (finalStep st line).records = (segStep seg line).groups.filterMap finalAccept
    ∧ (finalStep st line).current = (segStep seg line).current := by
  simp only [finalStep, segStep]
  by_cases ha : uuidAnchorB (pyRstripChars nlChars line)
  · rw [if_pos ha, if_pos ha]
    by_cases hc : seg.current.isEmpty
    · have hc' : st.current.isEmpty := by rw [h2]; exact hc
      rw [if_pos hc, if_pos hc']
      exact ⟨h1, rfl⟩
    · have hc' : ¬st.current.isEmpty := by rw [h2]; exact hc
      rw [if_neg hc, if_neg hc']
      refine ⟨?_, rfl⟩
      rw [(finalFlush_records st).1, h1, h2, List.filterMap_append,
        filterMap_singleton]
  · rw [if_neg ha, if_neg ha]
    by_cases hc : seg.current.isEmpty
    · have hc' : st.current.isEmpty := by rw [h2]; exact hc
      rw [if_pos hc, if_pos hc']
      exact ⟨h1, h2⟩
    · have hc' : ¬st.current.isEmpty := by rw [h2]; exact hc
      rw [if_neg hc, if_neg hc']
      exact ⟨h1, by rw [h2]⟩

theorem cleanStep_rel (st : RecSt) (seg : SegSt) (line : List Char)
    (h1 : st.records = seg.groups.filterMap cleanAccept)
    (h2 : st.current = seg.current) :
    (cleanStep st line).records = (segStep seg line).groups.filterMap cleanAccept
    ∧ (cleanStep st line).current = (segStep seg line).current := by
  simp only [cleanStep, segStep]
  by_cases ha : uuidAnchorB (pyRstripChars nlChars line)
  · rw [if_pos ha, if_pos ha]
    by_cases hc : seg.current.isEmpty
    · have hc' : st.current.isEmpty := by rw [h2]; exact hc
      rw [if_pos hc, if_pos hc']
      exact ⟨h1, rfl⟩
    · have hc' : ¬st.current.isEmpty := by rw [h2]; exact hc
      rw [if_neg hc, if_neg hc']
      refine ⟨?_, rfl⟩
      rw [(cleanFlush_records st).1, h1, h2, List.filterMap_append,
        filterMap_singleton]
  · rw [if_neg ha, if_neg ha]
    by_cases hc : seg.current.isEmpty
    · have hc' : st.current.isEmpty := by rw [h2]; exact hc
      rw [if_pos hc, if_pos hc']
      exact ⟨h1, h2⟩
    · have hc' : ¬st.current.isEmpty := by rw [h2]; exact hc
      rw [if_neg hc, if_neg hc']
      exact ⟨h1, by rw [h2]⟩

theorem compStep_rel (ids : List (List Char)) (st : CompSt) (seg : SegSt) (line : List Char)
    (h1 : st.records = seg.groups.filterMap (compAccept ids))
    (h2 : st.current = seg.current) :
    (compStep ids st line).records = (segStep seg line).groups.filterMap (compAccept ids)
    ∧ (compStep ids st line).current = (segStep seg line).current := by
  simp only [compStep, segStep]
  by_cases ha : uuidAnchorB (pyRstripChars nlChars line)
  · rw [if_pos ha, if_pos ha]
    by_cases hc : seg.current.isEmpty
    · have hc' : st.current.isEmpty := by rw [h2]; exact hc
      rw [if_pos hc, if_pos hc']
      exact ⟨h1, rfl⟩
    · have hc' : ¬st.current.isEmpty := by rw [h2]; exact hc
      rw [if_neg hc, if_neg hc']
      refine ⟨?_, rfl⟩
      dsimp only
      rw [(compFlush_records ids st).1, h1, h2, List.filterMap_append,
        filterMap_singleton]
  · rw [if_neg ha, if_neg ha]
    by_cases hc : seg.current.isEmpty
    · have hc' : st.current.isEmpty := by rw [h2]; exact hc
      rw [if_pos hc, if_pos hc']
      exact ⟨h1, h2⟩
    · have hc' : ¬st.current.isEmpty := by rw [h2]; exact hc
      rw [if_neg hc, if_neg hc']
      exact ⟨h1, by rw [h2]⟩

theorem fix_csv_final_factor (lines : List (List Char)) :
    fix_csv_final_records lines = (segmentLines lines).filterMap finalAccept := by
  have h := foldl_rel
    (fun (st : RecSt) (seg : SegSt) =>
      st.records = seg.groups.filterMap finalAccept ∧ st.current = seg.current)
    finalStep segStep
    (fun a b c hab => finalStep_rel a b c hab.1 hab.2)
    lines ⟨[], []⟩ ⟨[], []⟩ ⟨by simp, rfl⟩
  simp only [fix_csv_final_records, fix_csv_final_run, segmentLines, segFinish]
  by_cases hc : (lines.foldl segStep ⟨[], []⟩).current.isEmpty
  · have hc' : (lines.foldl finalStep (⟨[], []⟩ : RecSt)).current.isEmpty := by
      rw [h.2]; exact hc
    rw [if_pos hc, if_pos hc']
    exact h.1
  · have hc' : ¬(lines.foldl finalStep (⟨[], []⟩ : RecSt)).current.isEmpty := by
      rw [h.2]; exact hc
    rw [if_neg hc, if_neg hc']
    rw [(finalFlush_records _).1, h.1, h.2, List.filterMap_append, filterMap_singleton]

theorem create_clean_csv_factor (lines : List (List Char)) :
    create_clean_csv_records lines = (segmentLines lines).filterMap cleanAccept := by
  have h := foldl_rel
    (fun (st : RecSt) (seg : SegSt) =>
      st.records = seg.groups.filterMap cleanAccept ∧ st.current = seg.current)
    cleanStep segStep
    (fun a b c hab => cleanStep_rel a b c hab.1 hab.2)
    lines ⟨[], []⟩ ⟨[], []⟩ ⟨by simp, rfl⟩
  simp only [create_clean_csv_records, create_clean_csv_run, segmentLines, segFinish]
  by_cases hc : (lines.foldl segStep ⟨[], []⟩).current.isEmpty
  · have hc' : (lines.foldl cleanStep (⟨[], []⟩ : RecSt)).current.isEmpty := by
      rw [h.2]; exact hc
    rw [if_pos hc, if_pos hc']
    exact h.1
  · have hc' : ¬(lines.foldl cleanStep (⟨[], []⟩ : RecSt)).current.isEmpty := by
      rw [h.2]; exact hc
    rw [if_neg hc, if_neg hc']
    rw [(cleanFlush_records _).1, h.1, h.2, List.filterMap_append, filterMap_singleton]

theorem fix_competitor_csv_factor (ids : List (List Char)) (lines : List (List Char)) :
    (fix_competitor_csv_run ids lines).records
      = (segmentLines lines).filterMap (compAccept ids) := by
  have h := foldl_rel
    (fun (st : CompSt) (seg : SegSt) =>
      st.records = seg.groups.filterMap (compAccept ids) ∧ st.current = seg.current)
    (compStep ids) segStep
    (fun a b c hab => compStep_rel ids a b c hab.1 hab.2)
    lines ⟨[], [], 0, 0, 0, 0⟩ ⟨[], []⟩ ⟨by simp, rfl⟩
  simp only [fix_competitor_csv_run, fix_competitor_csv_loop, segmentLines, segFinish]
  by_cases hc : (lines.foldl segStep ⟨[], []⟩).current.isEmpty
  · have hc' : (lines.foldl (compStep ids) (⟨[], [], 0, 0, 0, 0⟩ : CompSt)).current.isEmpty := by
      rw [h.2]; exact hc
    rw [if_pos hc, if_pos hc']
    exact h.1
  · have hc' : ¬(lines.foldl (compStep ids) (⟨[], [], 0, 0, 0, 0⟩ : CompSt)).current.isEmpty := by
      rw [h.2]; exact hc
    rw [if_neg hc, if_neg hc']
    rw [(compFlushEnd_records ids _).1, h.1, h.2, List.filterMap_append, filterMap_singleton]

theorem good_join_ne (g : List (List Char)) (h : goodGroupB g = true) :
    (joinSpace g).isEmpty = false := by
  simp only [goodGroupB, Bool.and_eq_true] at h
  obtain ⟨⟨hne, hhead⟩, -⟩ := h
  cases g with
  | nil => simp at hne
  | cons l ls =>
    obtain ⟨c, cs, rfl, -⟩ := anchor_head l (by simpa using hhead)
    cases ls with
    | nil => simp [joinSpace]
    | cons m ms =>
      rw [joinSpace_cons_of_ne _ _ (by simp)]
      simp

theorem simpleFlush_emit (st : SimpleSt) (seg : SegSt)
    (h2 : st.current = joinSpace seg.current) (hgood : goodGroupB seg.current = true) :
    (simpleFlush st).fixed_lines = st.fixed_lines ++ [simpleClean seg.current]
    ∧ (simpleFlush st).current = st.current := by
  unfold simpleFlush
  rw [if_neg (by rw [h2, good_strip_join_ne seg.current hgood]; simp)]
  exact ⟨by rw [h2]; rfl, rfl⟩

theorem simpleStep_rel (st : SimpleSt) (seg : SegSt) (line : List Char)
    (h1 : st.fixed_lines = seg.groups.map simpleClean)
    (h2 : st.current = joinSpace seg.current)
    (hg : seg.groups.all goodGroupB = true)
    (hc : (seg.current.isEmpty || goodGroupB seg.current) = true) :
    (simpleStep st line).fixed_lines = (segStep seg line).groups.map simpleClean
    ∧ (simpleStep st line).current = joinSpace (segStep seg line).current
    ∧ (segStep seg line).groups.all goodGroupB = true
    ∧ ((segStep seg line).current.isEmpty || goodGroupB (segStep seg line).current) = true := by
  have hseg := segStep_good seg line hg hc
  by_cases ha : uuidAnchorB (pyRstripChars nlChars line)
  · by_cases hcur : seg.current.isEmpty
    · have hnil : seg.current = [] := by
        cases hx : seg.current
        · rfl
        · rw [hx] at hcur; simp at hcur
      have hs : segStep seg line = ⟨seg.groups, [pyRstripChars nlChars line]⟩ := by
        simp [segStep, ha, hcur]
      have hst : st.current = [] := by rw [h2, hnil]; rfl
      have hflush : simpleFlush st = st := by
        unfold simpleFlush
        rw [if_pos (by rw [hst]; rfl)]
      have hp : simpleStep st line = ⟨st.fixed_lines, pyRstripChars nlChars line⟩ := by
        simp [simpleStep, ha, hflush]
      rw [hs] at hseg
      rw [hs, hp]
      exact ⟨h1, rfl, hseg.1, hseg.2⟩
    · have hgood : goodGroupB seg.current = true := by
        rcases Bool.or_eq_true_iff.mp hc with h | h
        · exact absurd h hcur
        · exact h
      have hs : segStep seg line
          = ⟨seg.groups ++ [seg.current], [pyRstripChars nlChars line]⟩ := by
        simp [segStep, ha, hcur]
      have hemit := simpleFlush_emit st seg h2 hgood
      have hp : simpleStep st line
          = ⟨st.fixed_lines ++ [simpleClean seg.current], pyRstripChars nlChars line⟩ := by
        simp only [simpleStep]
        rw [if_pos ha, hemit.1]
      rw [hs] at hseg
      rw [hs, hp]
      refine ⟨?_, rfl, hseg.1, hseg.2⟩
      rw [h1]
      dsimp only
      rw [List.map_append]
      rfl
  · by_cases hcur : seg.current.isEmpty
    · have hnil : seg.current = [] := by
        cases hx : seg.current
        · rfl
        · rw [hx] at hcur; simp at hcur
      have hs : segStep seg line = seg := by
        simp [segStep, ha, hcur]
      have hst : st.current.isEmpty := by rw [h2, hnil]; rfl
      have hp : simpleStep st line = st := by
        simp [simpleStep, ha, hst]
      rw [hs] at hseg
      rw [hs, hp]
      exact ⟨h1, h2, hseg.1, hseg.2⟩
    · have hgood : goodGroupB seg.current = true := by
        rcases Bool.or_eq_true_iff.mp hc with h | h
        · exact absurd h hcur
        · exact h
      have hne : seg.current ≠ [] := by
        intro hx
        rw [hx] at hcur
        simp at hcur
      have hs : segStep seg line
          = ⟨seg.groups, seg.current ++ [pyRstripChars nlChars line]⟩ := by
        simp [segStep, ha, hcur]
      have hst : ¬st.current.isEmpty = true := by
        rw [h2, good_join_ne seg.current hgood]
        simp
      have hp : simpleStep st line
          = ⟨st.fixed_lines, st.current ++ ' ' :: pyRstripChars nlChars line⟩ := by
        simp [simpleStep, ha, hst]
      rw [hs] at hseg
      rw [hs, hp]
      refine ⟨h1, ?_, hseg.1, hseg.2⟩
      dsimp only
      rw [h2, joinSpace_append_single seg.current _ hne]

theorem fix_csv_simple_factor (lines : List (List Char)) :
    fix_csv_simple_records lines = (segmentLines lines).map simpleClean := by
  have h := foldl_rel
    (fun (st : SimpleSt) (seg : SegSt) =>
      st.fixed_lines = seg.groups.map simpleClean
      ∧ st.current = joinSpace seg.current
      ∧ seg.groups.all goodGroupB = true
      ∧ (seg.current.isEmpty || goodGroupB seg.current) = true)
    simpleStep segStep
    (fun a b c hab => simpleStep_rel a b c hab.1 hab.2.1 hab.2.2.1 hab.2.2.2)
    lines ⟨[], []⟩ ⟨[], []⟩ ⟨by simp, rfl, by simp, by simp⟩
  obtain ⟨h1, h2, hg, hc⟩ := h
  simp only [fix_csv_simple_records, fix_csv_simple_run, segmentLines, segFinish]
  by_cases hcur : (lines.foldl segStep ⟨[], []⟩).current.isEmpty
  · have hnil : (lines.foldl segStep ⟨[], []⟩).current = [] := by
      cases hx : (lines.foldl segStep ⟨[], []⟩).current
      · rfl
      · rw [hx] at hcur; simp at hcur
    have hst : (lines.foldl simpleStep (⟨[], []⟩ : SimpleSt)).current = [] := by
      rw [h2, hnil]; rfl
    have hflush : simpleFlush (lines.foldl simpleStep ⟨[], []⟩) =
        lines.foldl simpleStep ⟨[], []⟩ := by
      unfold simpleFlush
      rw [if_pos (by rw [hst]; rfl)]
    rw [if_pos hcur, hflush, h1]
  · have hgood : goodGroupB (lines.foldl segStep ⟨[], []⟩).current = true := by
      rcases Bool.or_eq_true_iff.mp hc with h | h
      · exact absurd h hcur
      · exact h
    have hemit := simpleFlush_emit (lines.foldl simpleStep ⟨[], []⟩)
      (lines.foldl segStep ⟨[], []⟩) h2 hgood
    rw [if_neg hcur, hemit.1, h1, List.map_append]
    rfl

/-! ## Rightmost-split characterisation -/

theorem getLast?_mem {α : Type _} : ∀ (l : List α) (a : α), l.getLast? = some a → a ∈ l := by
  intro l
  induction l with
  | nil => intro a h; simp at h
  | cons b bs ih =>
    intro a h
    cases bs with
    | nil => simp at h; simp [h]
    | cons c cs =>
      rw [List.getLast?_cons_cons] at h
      exact List.mem_cons_of_mem b (ih a h)

theorem getLast?_max_sorted : ∀ (l : List Nat), l.Pairwise (· ≤ ·) →
    ∀ i, l.getLast? = some i → ∀ j ∈ l, j ≤ i := by
  intro l
  induction l with
  | nil => intro _ i h; simp at h
  | cons b bs ih =>
    intro hp i h j hj
    cases bs with
    | nil =>
      simp at h
      rcases List.mem_singleton.mp hj with rfl
      exact Nat.le_of_eq h
    | cons c cs =>
      rw [List.getLast?_cons_cons] at h
      have hi : i ∈ c :: cs := getLast?_mem _ _ h
      rcases List.mem_cons.mp hj with rfl | hj'
      · exact (List.pairwise_cons.mp hp).1 i hi
      · exact ih (List.pairwise_cons.mp hp).2 i h j hj'

theorem subOccurrences_sorted (pat s : List Char) :
    (subOccurrences pat s).Pairwise (· ≤ ·) := by
  have hr : (List.range (s.length + 1)).Pairwise (· ≤ ·) :=
    List.Pairwise.imp Nat.le_of_lt (List.pairwise_lt_range _)
  exact List.Pairwise.sublist (List.filter_sublist _) hr

theorem mem_subOccurrences (pat s : List Char) (i : Nat)
    (h : i ∈ subOccurrences pat s) :
    i ≤ s.length ∧ pat.isPrefixOf (s.drop i) = true := by
  simp only [subOccurrences, List.mem_filter, List.mem_range] at h
  exact ⟨Nat.lt_succ_iff.mp h.1, h.2⟩

theorem rsplitLastAt_spec (pat s l r : List Char)
    (h : rsplitLastAt pat s = some (l, r)) :
    s = l ++ pat ++ r ∧ (∀ j ∈ subOccurrences pat s, j ≤ l.length) := by
  unfold rsplitLastAt at h
  cases hlast : (subOccurrences pat s).getLast? with
  | none => rw [hlast] at h; simp at h
  | some i =>
    rw [hlast] at h
    injection h with h'
    have hl : l = s.take i := congrArg Prod.fst h'.symm
    have hr : r = s.drop (i + pat.length) := congrArg Prod.snd h'.symm
    have hmem : i ∈ subOccurrences pat s := getLast?_mem _ _ hlast
    obtain ⟨hle, hpre⟩ := mem_subOccurrences pat s i hmem
    have hlen : l.length = i := by
      rw [hl, List.length_take]
      omega
    constructor
    · obtain ⟨t, ht⟩ := List.isPrefixOf_iff_prefix.mp hpre
      have h3 : (s.drop i).drop pat.length = t := by
        rw [← ht, List.drop_left]
      have h2 : s.drop (i + pat.length) = t := by
        rw [← h3, List.drop_drop, Nat.add_comm]
      calc s = s.take i ++ s.drop i := (List.take_append_drop i s).symm
        _ = s.take i ++ (pat ++ t) := by rw [← ht]
        _ = l ++ pat ++ r := by rw [← hl, ← h2, ← hr, List.append_assoc]
    · intro j hj
      rw [hlen]
      exact getLast?_max_sorted _ (subOccurrences_sorted pat s) i hlast j hj

theorem splitTextSpanQuoted_none (m : List Char)
    (h : rsplitLastAt qcqJoint m = none) :
    splitTextSpanQuoted m = (pyStripChars [ '"'] m, []) := by
  unfold splitTextSpanQuoted
  rw [if_neg]
  intro hcontains
  simp only [containsSub, Bool.not_eq_true'] at hcontains
  unfold rsplitLastAt at h
  cases hlast : (subOccurrences qcqJoint m).getLast? with
  | none =>
    have hnil := List.getLast?_eq_none_iff.mp hlast
    rw [hnil] at hcontains
    simp at hcontains
  | some i => rw [hlast] at h; simp at h

theorem splitTextSpanQuoted_some (m l r : List Char)
    (h : rsplitLastAt qcqJoint m = some (l, r)) :
    splitTextSpanQuoted m = (pyStripChars [ '"'] l, pyStripChars [ '"'] r) := by
  unfold splitTextSpanQuoted
  rw [if_pos, pyRsplitOnce, h]
  · rfl
  · simp only [containsSub, Bool.not_eq_true']
    unfold rsplitLastAt at h
    cases hlast : (subOccurrences qcqJoint m).getLast? with
    | none => rw [hlast] at h; simp at h
    | some i =>
      have : subOccurrences qcqJoint m ≠ [] := by
        intro hnil
        rw [hnil] at hlast
        simp at hlast
      simp [List.isEmpty_iff, this]

theorem splitTextSpanFinal_none (m : List Char)
    (h : rsplitLastAt qcqJoint m = none) :
    splitTextSpanFinal m = (pyStripChars [ '"'] m, []) := by
  unfold splitTextSpanFinal pyRsplitOnce
  rw [h]
  simp

theorem splitTextSpanFinal_some (m l r : List Char)
    (h : rsplitLastAt qcqJoint m = some (l, r)) :
    splitTextSpanFinal m = (pyStripChars [ '"'] l, pyStripWs r) := by
  unfold splitTextSpanFinal pyRsplitOnce
  rw [h]
  simp

/-! ## Timestamp-anchor behaviour of the resolvers -/

theorem parse_competitor_none_of_few (lines : List (List Char))
    (h : (tsFindAllFull (compRemainingText lines)).length < 2) :
    parse_competitor_record lines = none := by
  simp only [compRemainingText] at h
  simp only [parse_competitor_record]
  split
  · rfl
  · rw [if_neg]
    omega

theorem parse_competitor_anchor_fields (lines : List (List Char)) (r : List (List Char))
    (h : parse_competitor_record lines = some r) :
    2 ≤ (tsFindAllFull (compRemainingText lines)).length
    ∧ r.getD 10 [] = tsMatchText (compRemainingText lines)
        ((tsFindAllFull (compRemainingText lines)).getD
          ((tsFindAllFull (compRemainingText lines)).length - 2) (0, 0))
    ∧ r.getD 11 [] = tsMatchText (compRemainingText lines)
        ((tsFindAllFull (compRemainingText lines)).getD
          ((tsFindAllFull (compRemainingText lines)).length - 1) (0, 0)) := by
  simp only [parse_competitor_record] at h
  split at h
  · exact absurd h (by simp)
  · split at h
    · injection h with h'
      subst h'
      refine ⟨?_, ?_, ?_⟩
      · simp only [compRemainingText]
        assumption
      · simp only [compRemainingText, List.getD_cons_succ, List.getD_cons_zero]
      · simp only [compRemainingText, List.getD_cons_succ, List.getD_cons_zero]
    · exact absurd h (by simp)

theorem parse_clean_none_of_few (lines : List (List Char))
    (h : (tsFindAllFull (cleanFullLine lines)).length < 2) :
    parse_record_lines lines = none := by
  simp only [cleanFullLine] at h
  simp only [parse_record_lines]
  rw [if_neg]
  omega

theorem parse_clean_anchor_fields (lines : List (List Char)) (r : List (List Char))
    (h : parse_record_lines lines = some r) :
    2 ≤ (tsFindAllFull (cleanFullLine lines)).length
    ∧ r.getD 10 [] = tsMatchText (cleanFullLine lines)
        ((tsFindAllFull (cleanFullLine lines)).getD
          ((tsFindAllFull (cleanFullLine lines)).length - 2) (0, 0))
    ∧ r.getD 11 [] = tsMatchText (cleanFullLine lines)
        ((tsFindAllFull (cleanFullLine lines)).getD
          ((tsFindAllFull (cleanFullLine lines)).length - 1) (0, 0)) := by
  simp only [parse_record_lines] at h
  split at h
  · split at h
    · injection h with h'
      subst h'
      refine ⟨?_, ?_, ?_⟩
      · simp only [cleanFullLine]
        assumption
      · simp only [cleanFullLine, List.getD_cons_succ, List.getD_cons_zero]
      · simp only [cleanFullLine, List.getD_cons_succ, List.getD_cons_zero]
    · exact absurd h (by simp)
  · exact absurd h (by simp)

theorem process_none_of_few (lines : List (List Char))
    (h : (finalTsPositions lines).length < 2) :
    process_record_lines lines = none := by
  simp only [finalTsPositions] at h
  simp only [process_record_lines]
  split
  · rfl
  · rw [if_neg]
    omega

theorem list_len8 {α : Type _} (l : List α) (h : l.length = 8) :
    ∃ a0 a1 a2 a3 a4 a5 a6 a7, l = [a0, a1, a2, a3, a4, a5, a6, a7] := by
  cases l with
  | nil => simp at h
  | cons a0 t0 =>
  cases t0 with
  | nil => simp at h
  | cons a1 t1 =>
  cases t1 with
  | nil => simp at h
  | cons a2 t2 =>
  cases t2 with
  | nil => simp at h
  | cons a3 t3 =>
  cases t3 with
  | nil => simp at h
  | cons a4 t4 =>
  cases t4 with
  | nil => simp at h
  | cons a5 t5 =>
  cases t5 with
  | nil => simp at h
  | cons a6 t6 =>
  cases t6 with
  | nil => simp at h
  | cons a7 t7 =>
  cases t7 with
  | nil => exact ⟨a0, a1, a2, a3, a4, a5, a6, a7, rfl⟩
  | cons a8 t8 =>
    simp only [List.length_cons] at h
    omega

theorem process_anchor_fields (lines : List (List Char)) (r : List (List Char))
    (h : process_record_lines lines = some r) :
    2 ≤ (finalTsPositions lines).length
    ∧ r.getD 10 [] = finalAnalyzedAt lines
    ∧ r.getD 11 [] = finalCreatedAt lines := by
  simp only [process_record_lines] at h
  split at h
  · exact absurd h (by simp)
  · split at h
    · injection h with h2
      subst h2
      have hq : ((pySplit ',' (pyStripWs (joinSpace lines))).take 8).length = 8 := by
        rw [List.length_take]
        omega
      obtain ⟨a0, a1, a2, a3, a4, a5, a6, a7, hq8⟩ := list_len8 _ hq
      rw [hq8]
      refine ⟨?_, ?_, ?_⟩
      · simp only [finalTsPositions]
        assumption
      · simp only [finalAnalyzedAt, finalRemainingParts, finalTsPositions]
        rfl
      · simp only [finalCreatedAt, finalRemainingParts, finalTsPositions]
        rfl
    · exact absurd h (by simp)

/-! ## Sanitizer truncation behaviour -/

theorem pyReplaceChar_of_not_mem (c0 : Char) (rep : List Char) :
    ∀ l : List Char, c0 ∉ l → pyReplaceChar c0 rep l = l := by
  intro l
  induction l with
  | nil => intro _; rfl
  | cons c cs ih =>
    intro h
    have hc : ¬c = c0 := by
      intro hcc
      exact h (by simp [hcc])
    simp only [pyReplaceChar, if_neg hc]
    rw [ih (fun hm => h (List.mem_cons_of_mem c hm))]

theorem escape_replicate_a (n : Nat) :
    escapeLLMText (List.replicate n 'a') = List.replicate n 'a' := by
  have hnm : ∀ c0 : Char, ¬c0 = 'a' → c0 ∉ List.replicate n 'a' := by
    intro c0 hne hm
    exact hne (List.eq_of_mem_replicate hm)
  unfold escapeLLMText
  rw [pyReplaceChar_of_not_mem _ _ _ (hnm _ (by decide)),
    pyReplaceChar_of_not_mem _ _ _ (hnm _ (by decide)),
    pyReplaceChar_of_not_mem _ _ _ (hnm _ (by decide)),
    pyReplaceChar_of_not_mem _ _ _ (hnm _ (by decide))]

theorem pyReplaceChar_cons_self (c0 : Char) (rep : List Char) (l : List Char) :
    pyReplaceChar c0 rep (c0 :: l) = rep ++ pyReplaceChar c0 rep l := by
  rw [pyReplaceChar, if_pos rfl]

theorem escape_nul_input :
    escapeLLMText c8nulInput = List.replicate 50000 'a' := by
  unfold escapeLLMText c8nulInput
  have h0 : pyReplaceChar (Char.ofNat 0) [] (Char.ofNat 0 :: List.replicate 50000 'a')
      = List.replicate 50000 'a' := by
    rw [pyReplaceChar_cons_self, List.nil_append]
    exact pyReplaceChar_of_not_mem _ _ _
      (fun hm => by exact absurd (List.eq_of_mem_replicate hm) (by decide))
  rw [h0,
    pyReplaceChar_of_not_mem _ _ _
      (fun hm => absurd (List.eq_of_mem_replicate hm) (by decide)),
    pyReplaceChar_of_not_mem _ _ _
      (fun hm => absurd (List.eq_of_mem_replicate hm) (by decide)),
    pyReplaceChar_of_not_mem _ _ _
      (fun hm => absurd (List.eq_of_mem_replicate hm) (by decide))]

theorem escapeLLMText_nil : escapeLLMText [] = [] := rfl

theorem clean_text_field_truncates (t : List Char)
    (h : 50000 < (escapeLLMText t).length) :
    clean_text_field t = (escapeLLMText t).take 50000 ++ truncMarker := by
  unfold clean_text_field
  rw [if_neg, if_pos h]
  intro hempty
  have hnil : t = [] := by
    cases hx : t
    · rfl
    · rw [hx] at hempty; simp at hempty
  rw [hnil, escapeLLMText_nil] at h
  simp at h

theorem clean_text_field_no_trunc (t : List Char)
    (h : (escapeLLMText t).length ≤ 50000) :
    clean_text_field t = escapeLLMText t := by
  unfold clean_text_field
  by_cases hempty : t.isEmpty
  · have hnil : t = [] := by
      cases hx : t
      · rfl
      · rw [hx] at hempty; simp at hempty
    rw [if_pos hempty, hnil, escapeLLMText_nil]
  · rw [if_neg hempty, if_neg (by omega)]

/-! ## Claim theorems -/

/-- C1 (amended): when the text span contains the joint `","`, every resolver
splits it at the *last* occurrence (the split point dominates every occurrence
index); the left part becomes `response_text` with surrounding quotes
stripped in all resolvers; the right part becomes `summary_text` with
surrounding quotes stripped in the two competitor resolvers but only
whitespace-stripped in `fix_csv_final`; with no joint, the whole span becomes
`response_text` (quote-stripped) and `summary_text` is empty everywhere. -/
theorem c1_text_span_split (m : List Char) :
    (∀ l r, rsplitLastAt qcqJoint m = some (l, r) →
      m = l ++ qcqJoint ++ r
      ∧ (∀ j ∈ subOccurrences qcqJoint m, j ≤ l.length)
      ∧ splitTextSpanQuoted m = (pyStripChars [ '"'] l, pyStripChars [ '"'] r)
      ∧ splitTextSpanFinal m = (pyStripChars [ '"'] l, pyStripWs r))
    ∧ (rsplitLastAt qcqJoint m = none →
      splitTextSpanQuoted m = (pyStripChars [ '"'] m, [])
      ∧ splitTextSpanFinal m = (pyStripChars [ '"'] m, [])) := by
  constructor
  · intro l r h
    obtain ⟨h1, h2⟩ := rsplitLastAt_spec qcqJoint m l r h
    exact ⟨h1, h2, splitTextSpanQuoted_some m l r h, splitTextSpanFinal_some m l r h⟩
  · intro h
    exact ⟨splitTextSpanQuoted_none m h, splitTextSpanFinal_none m h⟩

/-- Witness for C1 on the span of the specification's scenario record. -/
theorem c1_text_span_split_witness :
    ( "\"hello\",\"world\"").toList
        = ( "\"hello").toList ++ qcqJoint ++ ( "world\"").toList
    ∧ splitTextSpanQuoted ( "\"hello\",\"world\"").toList
        = (( "hello").toList, ( "world").toList)
    ∧ splitTextSpanFinal ( "\"hello\",\"world\"").toList
        = (( "hello").toList, ( "world\"").toList) := by
  have h := (c1_text_span_split ( "\"hello\",\"world\"").toList).1
    ( "\"hello").toList ( "world\"").toList (by decide)
  refine ⟨h.1, ?_, ?_⟩
  · rw [h.2.2.1]
    decide
  · rw [h.2.2.2]
    decide

/-- C1 counterexample: on the scenario line, `fix_csv_final` emits
`summary_text` with its closing quote retained, so the right part is not
quote-stripped as the claim states for every resolver. -/
theorem c1_counterexample :
    process_record_lines [c4line] = some c4finalRec
    ∧ rsplitLastAt qcqJoint ( "\"hello\",\"world\"").toList
        = some (( "\"hello").toList, ( "world\"").toList)
    ∧ c4finalRec.getD 9 [] = ( "world\"").toList
    ∧ c4finalRec.getD 9 [] ≠ pyStripChars [ '"'] ( "world\"").toList := by
  refine ⟨by decide, by decide, by decide, by decide⟩

/-- C2 (amended): the competitor resolver and `create_clean_csv`'s resolver
scan with the full pattern `\d{4}-\d{2}-\d{2} \d{2}:\d{2}:\d{2}\.\d+\+\d{2}`
(the former over the comma-joined tail after the eight prefix fields, the
latter over the whole joined record text), drop the record when fewer than
two matches exist, and use the second-to-last and last matches as the
`analyzed_at` and `created_at` anchors; `fix_csv_final` instead tests each
comma-separated part for the bare prefix `\d{4}-\d{2}-\d{2} \d{2}:\d{2}:\d{2}`,
drops the record when fewer than two parts match, and otherwise assembles
`analyzed_at` from the parts spanning the second-to-last matching part up to
the last one and `created_at` from the last matching part alone. -/
theorem c2_timestamp_anchors :
    (∀ lines, (tsFindAllFull (compRemainingText lines)).length < 2 →
        parse_competitor_record lines = none)
    ∧ (∀ lines r, parse_competitor_record lines = some r →
        2 ≤ (tsFindAllFull (compRemainingText lines)).length
        ∧ r.getD 10 [] = tsMatchText (compRemainingText lines)
            ((tsFindAllFull (compRemainingText lines)).getD
              ((tsFindAllFull (compRemainingText lines)).length - 2) (0, 0))
        ∧ r.getD 11 [] = tsMatchText (compRemainingText lines)
            ((tsFindAllFull (compRemainingText lines)).getD
              ((tsFindAllFull (compRemainingText lines)).length - 1) (0, 0)))
    ∧ (∀ lines, (tsFindAllFull (cleanFullLine lines)).length < 2 →
        parse_record_lines lines = none)
    ∧ (∀ lines r, parse_record_lines lines = some r →
        2 ≤ (tsFindAllFull (cleanFullLine lines)).length
        ∧ r.getD 10 [] = tsMatchText (cleanFullLine lines)
            ((tsFindAllFull (cleanFullLine lines)).getD
              ((tsFindAllFull (cleanFullLine lines)).length - 2) (0, 0))
        ∧ r.getD 11 [] = tsMatchText (cleanFullLine lines)
            ((tsFindAllFull (cleanFullLine lines)).getD
              ((tsFindAllFull (cleanFullLine lines)).length - 1) (0, 0)))
    ∧ (∀ lines, (finalTsPositions lines).length < 2 →
        process_record_lines lines = none)
    ∧ (∀ lines r, process_record_lines lines = some r →
        2 ≤ (finalTsPositions lines).length
        ∧ r.getD 10 [] = finalAnalyzedAt lines
        ∧ r.getD 11 [] = finalCreatedAt lines) :=
  ⟨parse_competitor_none_of_few, parse_competitor_anchor_fields,
   parse_clean_none_of_few, parse_clean_anchor_fields,
   process_none_of_few, process_anchor_fields⟩

/-- Witness for C2: a record with no full-pattern timestamps is rejected by
the competitor resolver, and on a well-formed record the emitted anchor
fields are exactly the second-to-last and last matches. -/
theorem c2_timestamp_anchors_witness :
    parse_competitor_record [l2line] = none
    ∧ c6rec.getD 10 [] = tsMatchText (compRemainingText [c6line])
        ((tsFindAllFull (compRemainingText [c6line])).getD
          ((tsFindAllFull (compRemainingText [c6line])).length - 2) (0, 0))
    ∧ c6rec.getD 11 [] = tsMatchText (compRemainingText [c6line])
        ((tsFindAllFull (compRemainingText [c6line])).getD
          ((tsFindAllFull (compRemainingText [c6line])).length - 1) (0, 0))
    ∧ l2rec.getD 10 [] = finalAnalyzedAt [l2line]
    ∧ l2rec.getD 11 [] = finalCreatedAt [l2line] := by
  refine ⟨c2_timestamp_anchors.1 [l2line] (by decide), ?_, ?_, ?_, ?_⟩
  · exact (c2_timestamp_anchors.2.1 [c6line] c6rec (by decide)).2.1
  · exact (c2_timestamp_anchors.2.1 [c6line] c6rec (by decide)).2.2
  · exact (c2_timestamp_anchors.2.2.2.2.2 [l2line] l2rec (by decide)).2.1
  · exact (c2_timestamp_anchors.2.2.2.2.2 [l2line] l2rec (by decide)).2.2

/-- C2 counterexample: `l2line` contains no match of the claimed pattern
`YYYY-MM-DD HH:MM:SS.ffffff+HH` at all, so under the claim the record must be
dropped, yet `fix_csv_final` resolves it. -/
theorem c2_counterexample :
    tsFindAllFull l2line = []
    ∧ tsFindAllFull (compRemainingText [l2line]) = []
    ∧ process_record_lines [l2line] = some l2rec := by
  refine ⟨by decide, by decide, by decide⟩

/-- C3: the Record Segmenter opens a group exactly at anchor lines (every
group is nonempty, starts with an anchor line and continues with non-anchor
lines only), keeps every line from the first anchor on (lines before any
anchor are discarded, the last open group is flushed at end of input), and
the `fix_csv_final` and `fix_competitor_csv` loops are exactly this
segmentation followed by per-group resolution. -/
theorem c3_record_segmentation (lines valid_llm_ids : List (List Char)) :
    (segmentLines lines).all goodGroupB = true
    ∧ (segmentLines lines).flatten
        = (lines.map (pyRstripChars nlChars)).dropWhile (fun l => !uuidAnchorB l)
    ∧ fix_csv_final_records lines = (segmentLines lines).filterMap finalAccept
    ∧ (fix_competitor_csv_run valid_llm_ids lines).records
        = (segmentLines lines).filterMap (compAccept valid_llm_ids) :=
  ⟨segmentLines_good lines, segmentLines_join lines, fix_csv_final_factor lines,
   fix_competitor_csv_factor valid_llm_ids lines⟩

/-- C4 (amended): `create_clean_csv` resolves the scenario line to the
claimed 13-tuple with `response_text = hello` and `summary_text = world`;
`fix_csv_final` resolves it to the same tuple except that `summary_text`
keeps its closing quote (`world"`). -/
theorem c4_scenario_amended :
    parse_record_lines [c4line] = some c4cleanRec
    ∧ c4cleanRec.length = 13
    ∧ c4cleanRec.getD 8 [] = ( "hello").toList
    ∧ c4cleanRec.getD 9 [] = ( "world").toList
    ∧ process_record_lines [c4line] = some c4finalRec
    ∧ c4finalRec.length = 13
    ∧ c4finalRec.getD 8 [] = ( "hello").toList
    ∧ c4finalRec.getD 9 [] = ( "world\"").toList := by
  refine ⟨by decide, by decide, by decide, by decide, by decide, by decide,
    by decide, by decide⟩

/-- C4 counterexample: `fix_csv_final` does not give `summary_text = world`
on the scenario line. -/
theorem c4_counterexample :
    process_record_lines [c4line] = some c4finalRec
    ∧ c4finalRec.getD 9 [] ≠ ( "world").toList :=
  ⟨by decide, by decide⟩

/-- C5: every record the `fix_csv_final` pipeline accepts has exactly 13
fields, and every record the `fix_competitor_csv` pipeline accepts has
exactly 14 fields. -/
theorem c5_schema_arity :
    (∀ lines r, r ∈ fix_csv_final_records lines → r.length = 13)
    ∧ (∀ valid_llm_ids lines r,
        r ∈ (fix_competitor_csv_run valid_llm_ids lines).records → r.length = 14) :=
  ⟨fun lines r h => fix_csv_final_arity lines r h,
   fun valid_llm_ids lines r h => fix_competitor_csv_arity valid_llm_ids lines r h⟩

/-- Witness for C5 on concrete accepted records of both entities. -/
theorem c5_schema_arity_witness :
    c4finalRec.length = 13 ∧ c6rec.length = 14 := by
  constructor
  · exact c5_schema_arity.1 [c4line] c4finalRec (by decide)
  · exact c5_schema_arity.2 [( "c1b2c3d4-e5f6-7890-abcd-ef1234567890").toList]
      [c6line] c6rec (by decide)

/-- C6: in both competitor pipelines, a record that resolves to the full
14-field arity whose `llm_analysis_id` is not in the parent-identifier set is
excluded from the output records, the foreign-key-violation counter is
incremented, and the total-processed counter is still incremented; nothing
else in the state changes. -/
theorem c6_fk_violation :
    (∀ (valid_llm_ids : List (List Char)) (st : CompSt) (r : List (List Char)),
      parse_competitor_record st.current = some r → r.length = 14 →
      valid_llm_ids.contains (r.getD 2 []) = false →
      compFlush valid_llm_ids st = ⟨st.records, st.current, st.total_processed + 1,
        st.valid_records, st.fk_violations + 1, st.malformed_records⟩)
    ∧ (∀ (valid_llm_ids : List (List Char)) (st : CfSt) (r : List (List Char)),
      parse_competitor_record_robust st.current = some r → r.length = 14 →
      valid_llm_ids.contains (r.getD 2 []) = false →
      cfFlush valid_llm_ids st = ⟨st.records, st.current, st.total_processed + 1,
        st.valid_records, st.fk_violations + 1⟩) :=
  ⟨fun ids st r hp hl hm => compFlush_fk_reject ids st r hp hl hm,
   fun ids st r hp hl hm => cfFlush_fk_reject ids st r hp hl hm⟩

/-- Witness for C6: flushing a well-formed record against an empty parent set
books one processed record and one violation and keeps the output empty. -/
theorem c6_fk_violation_witness :
    compFlush [] ⟨[], [c6line], 0, 0, 0, 0⟩ = ⟨[], [c6line], 1, 0, 1, 0⟩
    ∧ cfFlush [] ⟨[], [c6line], 0, 0, 0⟩ = ⟨[], [c6line], 1, 0, 1⟩ := by
  constructor
  · exact c6_fk_violation.1 [] ⟨[], [c6line], 0, 0, 0, 0⟩ c6rec
      (by decide) (by decide) (by decide)
  · exact c6_fk_violation.2 [] ⟨[], [c6line], 0, 0, 0⟩ c6rec
      (by decide) (by decide) (by decide)

/-- C7: on a row whose optional `analysis_session_id` is nonempty and not a
valid UUID, `validate_row` keeps the verdict valid and records a warning, but
the row written by `process_file` still carries the original invalid value
rather than the empty string the specification promises (the coercion on
line 122 of `fix_llm_csv.py` mutates only a method-local dict). -/
theorem c7_optional_uuid_divergence :
    (validate_row c7row).is_valid = true
    ∧ (validate_row c7row).warnings = [VMsg.invalidOptionalUuid]
    ∧ (validate_row c7row).errors = []
    ∧ (c7row.getD 12 []).isEmpty = false
    ∧ is_valid_uuid (c7row.getD 12 []) = false
    ∧ (emit_row c7row).getD 12 [] = ( "not-a-uuid").toList
    ∧ ( "not-a-uuid").toList ≠ ([] : List Char) := by
  refine ⟨by decide, by decide, by decide, by decide, by decide, by decide, by decide⟩

/-- C8 (amended): when the text's length *after* NUL removal and escaping
exceeds the 50000-character cap, the sanitized result is exactly the first
50000 escaped characters followed by the truncation marker and nothing more;
otherwise the escaped text is returned unchanged. -/
theorem c8_truncation (t : List Char) :
    (50000 < (escapeLLMText t).length →
      clean_text_field t = (escapeLLMText t).take 50000 ++ truncMarker
      ∧ (clean_text_field t).length = 50000 + truncMarker.length)
    ∧ ((escapeLLMText t).length ≤ 50000 → clean_text_field t = escapeLLMText t) := by
  constructor
  · intro h
    have he := clean_text_field_truncates t h
    refine ⟨he, ?_⟩
    rw [he]
    simp only [List.length_append, List.length_take]
    omega
  · exact clean_text_field_no_trunc t

/-- Witness for C8 on an over-cap input of 50001 plain characters. -/
theorem c8_truncation_witness :
    clean_text_field c8bigInput = List.replicate 50000 'a' ++ truncMarker := by
  have hesc : escapeLLMText c8bigInput = List.replicate 50001 'a' := by
    unfold c8bigInput
    exact escape_replicate_a 50001
  have h := (c8_truncation c8bigInput).1
    (by rw [hesc, List.length_replicate]; omega)
  rw [h.1, hesc, List.take_replicate]
  have hmin : min 50000 50001 = 50000 := by omega
  rw [hmin]

/-- C8 counterexample: an input of 50001 characters starting with a NUL byte
exceeds the cap, yet the sanitized result is 50000 characters with no
truncation marker, because the length is measured after NUL removal. -/
theorem c8_counterexample :
    c8nulInput.length = 50001
    ∧ 50000 < c8nulInput.length
    ∧ clean_text_field c8nulInput = List.replicate 50000 'a'
    ∧ (clean_text_field c8nulInput).length ≠ 50000 + truncMarker.length := by
  have hlen : c8nulInput.length = 50001 := by
    unfold c8nulInput
    rw [List.length_cons, List.length_replicate]
  have hclean : clean_text_field c8nulInput = List.replicate 50000 'a' := by
    rw [clean_text_field_no_trunc _
      (by rw [escape_nul_input, List.length_replicate]), escape_nul_input]
  refine ⟨hlen, by omega, hclean, ?_⟩
  rw [hclean, List.length_replicate]
  decide

/-- C9: all four driver loops partition the post-header lines identically --
each factors through the single segmentation function `segmentLines`,
composed with its own per-group resolution (for `fix_csv_simple`, the
space-join and whitespace collapse of each group). -/
theorem c9_segmenters_agree (lines valid_llm_ids : List (List Char)) :
    fix_csv_final_records lines = (segmentLines lines).filterMap finalAccept
    ∧ create_clean_csv_records lines = (segmentLines lines).filterMap cleanAccept
    ∧ (fix_competitor_csv_run valid_llm_ids lines).records
        = (segmentLines lines).filterMap (compAccept valid_llm_ids)
    ∧ fix_csv_simple_records lines = (segmentLines lines).map simpleClean :=
  ⟨fix_csv_final_factor lines, create_clean_csv_factor lines,
   fix_competitor_csv_factor valid_llm_ids lines, fix_csv_simple_factor lines⟩

/-- C10: in both competitor pipelines, after any number of processed lines
and at termination, `total_processed = valid_records + fk_violations` and the
number of accumulated output records equals `valid_records`. -/
theorem c10_counter_consistency (valid_llm_ids lines : List (List Char)) :
    ((fix_competitor_csv_loop valid_llm_ids lines).total_processed
        = (fix_competitor_csv_loop valid_llm_ids lines).valid_records
          + (fix_competitor_csv_loop valid_llm_ids lines).fk_violations
      ∧ (fix_competitor_csv_loop valid_llm_ids lines).records.length
        = (fix_competitor_csv_loop valid_llm_ids lines).valid_records)
    ∧ ((fix_competitor_csv_run valid_llm_ids lines).total_processed
        = (fix_competitor_csv_run valid_llm_ids lines).valid_records
          + (fix_competitor_csv_run valid_llm_ids lines).fk_violations
      ∧ (fix_competitor_csv_run valid_llm_ids lines).records.length
        = (fix_competitor_csv_run valid_llm_ids lines).valid_records)
    ∧ ((fix_competitor_csv_final_loop valid_llm_ids lines).total_processed
        = (fix_competitor_csv_final_loop valid_llm_ids lines).valid_records
          + (fix_competitor_csv_final_loop valid_llm_ids lines).fk_violations
      ∧ (fix_competitor_csv_final_loop valid_llm_ids lines).records.length
        = (fix_competitor_csv_final_loop valid_llm_ids lines).valid_records)
    ∧ ((fix_competitor_csv_final_run valid_llm_ids lines).total_processed
        = (fix_competitor_csv_final_run valid_llm_ids lines).valid_records
          + (fix_competitor_csv_final_run valid_llm_ids lines).fk_violations
      ∧ (fix_competitor_csv_final_run valid_llm_ids lines).records.length
        = (fix_competitor_csv_final_run valid_llm_ids lines).valid_records) :=
  ⟨comp_loop_counters valid_llm_ids lines, comp_run_counters valid_llm_ids lines,
   cf_loop_counters valid_llm_ids lines, cf_run_counters valid_llm_ids lines⟩
